import Mathlib

/-!
# Defend the Spire: simulation core of `src/main.c`

A shallow embedding of the simulation functions of `src/main.c` (grid model,
pathing policy, unit pool, wave scheduler, per-frame update) together with
theorems about them.

Modelling conventions.

* C `int` fields are mathematical integers (`Int`); the program never relies
  on wrap-around.
* C `float` values are exact rationals (`ℚ`): every constant of the program
  (`0.5f`, `3.0f`, `100`, `50`, `20`, `5`) is exactly representable, and
  rounding is not modelled.
* A cast `(int) f` truncates toward zero (`toInt`).
* `sqrt` (libm) is not part of the repository. It is a parameter `sqrt : ℚ → ℚ`
  of the functions that call it; theorems that need a property of it state the
  property as a hypothesis.
* `GetRandomValue`, `CheckCollisionPointCircle`, `Vector2Distance` are library
  functions (raylib / raymath); they are modelled after the library sources.
  The pseudo random generator is a stream of raw draws (`Rng`).
* The pointer input (`IsMouseButtonPressed`, `GetMousePosition`) is the
  `Input` argument of a tick.
* `InitializeGame` contains an unbounded rejection loop. It is modelled with a
  bound `fuel` on the iterations of each such loop and returns `none` when a
  loop does not stop within the bound; "the function terminates" means that it
  returns a state for some `fuel`.
* `for (i = 0; i < MAX_ENEMIES; i++)` over the pool is a left fold over
  `List.finRange MAX_ENEMIES`; a loop that `break`s at the first slot
  satisfying a test is `Fin.find` (first index in slot order) followed by the
  loop body at that slot.
-/

namespace DefendTheSpire

/-! ## Constants -/

abbrev GRID_ROWS : Nat := 5
abbrev GRID_COLS : Nat := 7
abbrev CELL_SIZE : Int := 100
abbrev MAX_ENEMIES : Nat := 35
abbrev OBSTACLE_COUNT : Nat := 5

/-! ## Data model -/

inductive CellType where
  | EMPTY
  | CASTLE
  | ENEMY
  | OBSTACLE
deriving DecidableEq, Repr

structure Vector2 where
  x : ℚ
  y : ℚ
deriving DecidableEq

structure Enemy where
  position : Vector2
  targetCell : Vector2
  health : Int
  speed : Int
  active : Int
  worth : Int
deriving DecidableEq

structure GameState where
  grid : Fin GRID_ROWS → Fin GRID_COLS → CellType
  castleHealth : Int
  wave : Int
  enemiesInWave : Int
  enemiesAlive : Int
  enemies : Fin MAX_ENEMIES → Enemy
  spawnTimer : ℚ
  waveTimer : ℚ
  waveInProgress : Bool
  score : Int

/-- Stream of raw outputs of the C library generator `rand()`. -/
abbrev Rng := Nat → Nat

/-- Pointer input of one frame: `IsMouseButtonPressed(MOUSE_LEFT_BUTTON)` and
`GetMousePosition()`. -/
structure Input where
  pressed : Bool
  mousePos : Vector2

/-! ## Library functions -/

/-- The C cast `(int) f` of a float: truncation toward zero. -/
def toInt (q : ℚ) : Int := if 0 ≤ q then ⌊q⌋ else ⌈q⌉

/-- Library function `GetRandomValue(min, max)` of raylib (not in `src/`): a
value between `min` and `max`, both included, computed as
`if (min > max) swap; return rand() % (abs(max - min) + 1) + min;`.
Returns the value and the rest of the stream. -/
def GetRandomValue (min max : Int) (rng : Rng) : Int × Rng :=
  let lo := if min > max then max else min
  let hi := if min > max then min else max
  ((rng 0 : Int) % (|hi - lo| + 1) + lo, fun n => rng (n + 1))

/-- Library function `Vector2Distance(v1, v2)` of raymath (not in `src/`):
`sqrtf((v1.x - v2.x)*(v1.x - v2.x) + (v1.y - v2.y)*(v1.y - v2.y))`. -/
def Vector2Distance (sqrt : ℚ → ℚ) (v1 v2 : Vector2) : ℚ :=
  sqrt ((v1.x - v2.x) * (v1.x - v2.x) + (v1.y - v2.y) * (v1.y - v2.y))

/-- Library function `CheckCollisionPointCircle(point, center, radius)` of
raylib (not in `src/`): the point is inside the circle, border included; the
squared distance is compared with `radius*radius`. -/
def CheckCollisionPointCircle (point center : Vector2) (radius : ℚ) : Bool :=
  decide ((point.x - center.x) * (point.x - center.x)
    + (point.y - center.y) * (point.y - center.y) ≤ radius * radius)

/-! ## `src/main.c` -/

/-- Function `GetGridPosition`, lines 44-46. -/
def GetGridPosition (pos : Vector2) : Vector2 :=
  ⟨(toInt (pos.x / CELL_SIZE) : Int), (toInt (pos.y / CELL_SIZE) : Int)⟩

/-- Function `IsCellWalkable`, lines 48-51. -/
def IsCellWalkable (game : GameState) (x y : Int) : Bool :=
  if h : x < 0 ∨ x ≥ GRID_COLS ∨ y < 0 ∨ y ≥ GRID_ROWS then false
  else
    game.grid ⟨y.toNat, by omega⟩ ⟨x.toNat, by omega⟩ != CellType.OBSTACLE
      && game.grid ⟨y.toNat, by omega⟩ ⟨x.toNat, by omega⟩ != CellType.CASTLE

/-- Function `SpawnWave`, lines 93-99. -/
def SpawnWave (game : GameState) : GameState :=
  let game := { game with wave := game.wave + 1 }
  let game := { game with enemiesInWave := game.wave * 3 }
  let game := { game with enemiesAlive := game.enemiesInWave }
  let game := { game with spawnTimer := 1 / 2 }
  { game with waveInProgress := true }

/-- The slot written by `SpawnEnemy` (lines 104-111) for the row draw `spawnY`
in wave `wave`. -/
def spawnedEnemy (wave spawnY : Int) : Enemy :=
  let position : Vector2 := ⟨(CELL_SIZE / 2 : Int), (spawnY * CELL_SIZE + CELL_SIZE / 2 : Int)⟩
  { position := position
    targetCell := GetGridPosition position
    health := 1
    speed := 50 + wave * 10
    active := 1
    worth := 10 }

/-- Function `SpawnEnemy`, lines 101-117: the first inactive slot, if any, is
initialised; the row draw and the decrement of `enemiesInWave` are inside the
`if`. -/
def SpawnEnemy (game : GameState) (rng : Rng) : GameState × Rng :=
  match Fin.find (fun i => (game.enemies i).active = 0) with
  | some i =>
    let draw := GetRandomValue 0 (GRID_ROWS - 1) rng
    ({ game with
        enemies := Function.update game.enemies i (spawnedEnemy game.wave draw.1)
        enemiesInWave := game.enemiesInWave - 1 }, draw.2)
  | none => (game, rng)

/-- Function `FindNextPathCell`, lines 119-151. -/
def FindNextPathCell (game : GameState) (currentCell : Vector2) (rng : Rng) : Vector2 × Rng :=
  if IsCellWalkable game (toInt (currentCell.x + 1)) (toInt currentCell.y) then
    (⟨currentCell.x + 1, currentCell.y⟩, rng)
  else
    let canMoveUp := IsCellWalkable game (toInt currentCell.x) (toInt (currentCell.y - 1))
    let canMoveDown := IsCellWalkable game (toInt currentCell.x) (toInt (currentCell.y + 1))
    if canMoveUp && canMoveDown then
      let draw := GetRandomValue 0 1 rng
      (if draw.1 = 0 then ⟨currentCell.x, currentCell.y - 1⟩
        else ⟨currentCell.x, currentCell.y + 1⟩, draw.2)
    else if canMoveUp then (⟨currentCell.x, currentCell.y - 1⟩, rng)
    else if canMoveDown then (⟨currentCell.x, currentCell.y + 1⟩, rng)
    else if IsCellWalkable game (toInt (currentCell.x + 1)) (toInt (currentCell.y - 1)) then
      (⟨currentCell.x + 1, currentCell.y - 1⟩, rng)
    else if IsCellWalkable game (toInt (currentCell.x + 1)) (toInt (currentCell.y + 1)) then
      (⟨currentCell.x + 1, currentCell.y + 1⟩, rng)
    else (currentCell, rng)

/-- Centre of a grid cell: `cell.x * CELL_SIZE + CELL_SIZE/2` (lines 158-161
and 167-170; `CELL_SIZE/2` is the integer 50). -/
def cellCenter (cell : Vector2) : Vector2 :=
  ⟨cell.x * CELL_SIZE + (CELL_SIZE / 2 : Int), cell.y * CELL_SIZE + (CELL_SIZE / 2 : Int)⟩

/-- Lines 163-171 of `UpdateEnemies`: the target cell of an active unit after
the retarget test, and the generator after it. -/
def retarget (sqrt : ℚ → ℚ) (game : GameState) (e : Enemy) (rng : Rng) : Vector2 × Rng :=
  if Vector2Distance sqrt e.position (cellCenter e.targetCell) < 5
      || !IsCellWalkable game (toInt e.targetCell.x) (toInt e.targetCell.y) then
    FindNextPathCell game (GetGridPosition e.position) rng
  else (e.targetCell, rng)

/-- Lines 173-187 of `UpdateEnemies`: the position of a unit after moving
toward the centre of `targetCell` for `deltaTime`. The direction is divided by
its length only when the length is positive. -/
def moveToward (sqrt : ℚ → ℚ) (e : Enemy) (targetCell : Vector2) (deltaTime : ℚ) : Vector2 :=
  let targetCenter := cellCenter targetCell
  let direction : Vector2 := ⟨targetCenter.x - e.position.x, targetCenter.y - e.position.y⟩
  let length := sqrt (direction.x * direction.x + direction.y * direction.y)
  let direction : Vector2 :=
    if length > 0 then ⟨direction.x / length, direction.y / length⟩ else direction
  ⟨e.position.x + direction.x * e.speed * deltaTime,
   e.position.y + direction.y * e.speed * deltaTime⟩

/-- One iteration of the loop of `UpdateEnemies` (lines 155-194) at slot `i`. -/
def updateEnemy (sqrt : ℚ → ℚ) (deltaTime : ℚ) (st : GameState × Rng)
    (i : Fin MAX_ENEMIES) : GameState × Rng :=
  let game := st.1
  let e := game.enemies i
  if e.active = 0 then st
  else
    let t := retarget sqrt game e st.2
    let e := { e with targetCell := t.1 }
    let e := { e with position := moveToward sqrt e t.1 deltaTime }
    if ((((GRID_COLS : Int) - 1) * CELL_SIZE : Int) : ℚ) ≤ e.position.x then
      ({ game with
          enemies := Function.update game.enemies i { e with active := 0 }
          castleHealth := game.castleHealth - 1
          enemiesAlive := game.enemiesAlive - 1 }, t.2)
    else
      ({ game with enemies := Function.update game.enemies i e }, t.2)

/-- Function `UpdateEnemies`, lines 153-196. -/
def UpdateEnemies (sqrt : ℚ → ℚ) (game : GameState) (deltaTime : ℚ) (rng : Rng) :
    GameState × Rng :=
  (List.finRange MAX_ENEMIES).foldl (updateEnemy sqrt deltaTime) (game, rng)

/-- Function `HandleMouseClick`, lines 197-215. -/
def HandleMouseClick (game : GameState) (inp : Input) : GameState :=
  if inp.pressed then
    if inp.mousePos.x < (((GRID_COLS : Int) * CELL_SIZE : Int) : ℚ) then
      match Fin.find (fun i => (game.enemies i).active ≠ 0
          ∧ CheckCollisionPointCircle inp.mousePos (game.enemies i).position 20 = true) with
      | some i =>
        { game with
            enemies := Function.update game.enemies i { game.enemies i with active := 0 }
            enemiesAlive := game.enemiesAlive - 1
            score := game.score + (game.enemies i).worth }
      | none => game
    else game
  else game

/-- Lines 228-232 of `UpdateGame`: the spawn release and the cadence timer. -/
def spawnStep (game : GameState) (deltaTime : ℚ) (rng : Rng) : GameState × Rng :=
  let st : GameState × Rng :=
    if game.enemiesInWave > 0 ∧ game.spawnTimer ≤ 0 then
      let r := SpawnEnemy game rng
      ({ r.1 with spawnTimer := 1 / 2 }, r.2)
    else (game, rng)
  ({ st.1 with spawnTimer := st.1.spawnTimer - deltaTime }, st.2)

/-- Function `UpdateGame`, lines 216-241. -/
def UpdateGame (sqrt : ℚ → ℚ) (game : GameState) (deltaTime : ℚ) (inp : Input) (rng : Rng) :
    GameState × Rng :=
  if game.castleHealth ≤ 0 then (game, rng)
  else if game.wave ≥ 5 ∧ game.enemiesAlive = 0 ∧ game.waveInProgress = false then (game, rng)
  else
    let game := HandleMouseClick game inp
    if game.waveInProgress = false then
      let game := { game with waveTimer := game.waveTimer - deltaTime }
      if game.waveTimer ≤ 0 ∧ game.wave < 5 then (SpawnWave game, rng) else (game, rng)
    else
      let st := spawnStep game deltaTime rng
      let st := UpdateEnemies sqrt st.1 deltaTime st.2
      if st.1.enemiesAlive = 0 ∧ st.1.enemiesInWave = 0 then
        ({ st.1 with waveInProgress := false, waveTimer := 3 }, st.2)
      else st

/-- The main loop of `main` (lines 298-302) for a finite list of frames, each
with its elapsed time and pointer input. -/
def runFrames (sqrt : ℚ → ℚ) : List (ℚ × Input) → GameState × Rng → GameState × Rng
  | [], st => st
  | f :: fs, st => runFrames sqrt fs (UpdateGame sqrt st.1 f.1 f.2 st.2)

/-! ## Concrete states used as test inputs -/

/-- A pool slot that is not in use. -/
def idleEnemy : Enemy :=
  { position := ⟨0, 0⟩, targetCell := ⟨0, 0⟩, health := 0, speed := 0, active := 0, worth := 0 }

/-- The grid after the first two loops of `InitializeGame` (lines 55-64):
`CASTLE` in the last column, `EMPTY` elsewhere, no obstacle. -/
def castleGrid : Fin GRID_ROWS → Fin GRID_COLS → CellType :=
  fun _ x => if x.val = GRID_COLS - 1 then CellType.CASTLE else CellType.EMPTY

/-- The session state written by `InitializeGame` (lines 77-90) on `castleGrid`. -/
def startState : GameState :=
  { grid := castleGrid
    castleHealth := 10
    wave := 0
    enemiesInWave := 0
    enemiesAlive := 0
    enemies := fun _ => idleEnemy
    spawnTimer := 0
    waveTimer := 3
    waveInProgress := false
    score := 0 }

/-- A generator whose raw draws are all zero. -/
def zeroRng : Rng := fun _ => 0

/-- A frame without a click. -/
def noClick : Input := { pressed := false, mousePos := ⟨0, 0⟩ }

/-- A state whose pool is full: every slot is active and three units of
wave 1 are still to be released. -/
def fullPool : GameState :=
  { startState with
    wave := 1
    enemiesInWave := 3
    enemiesAlive := 38
    enemies := fun _ => { idleEnemy with active := 1 }
    spawnTimer := 0
    waveInProgress := true }

/-- An idle session (no wave in progress) that holds one active unit, worth
10, at `(50, 50)` in slot 0. -/
def clickTarget : GameState :=
  { startState with
    enemiesAlive := 1
    enemies := fun i =>
      if i.val = 0 then { idleEnemy with position := ⟨50, 50⟩, active := 1, worth := 10 }
      else idleEnemy }

/-- A click at `(50, 50)`. -/
def clickAt50 : Input := { pressed := true, mousePos := ⟨50, 50⟩ }

/-- The hit test of `HandleMouseClick` (line 203) for slot `i`. -/
@[reducible] def isHit (game : GameState) (mousePos : Vector2) (i : Fin MAX_ENEMIES) : Prop :=
  (game.enemies i).active ≠ 0
    ∧ CheckCollisionPointCircle mousePos (game.enemies i).position 20 = true

/-- Two states agree on every field that `UpdateEnemies` does not write: the
grid, the wave fields, the timers and the score. -/
def sameOutsideUnits (a b : GameState) : Prop :=
  b.grid = a.grid ∧ b.wave = a.wave ∧ b.enemiesInWave = a.enemiesInWave
    ∧ b.spawnTimer = a.spawnTimer ∧ b.waveTimer = a.waveTimer
    ∧ b.waveInProgress = a.waveInProgress ∧ b.score = a.score

/-- Slot `i` was active in `before` and is inactive in `after`. Between the
entry and the exit of `UpdateEnemies` this happens only in the goal-edge check
(lines 190-194). -/
def breached (before after : GameState) (i : Fin MAX_ENEMIES) : Bool :=
  decide ((before.enemies i).active ≠ 0) && decide ((after.enemies i).active = 0)

/-- Number of slots deactivated between `before` and `after`. -/
def breachCount (before after : GameState) : Nat :=
  (List.finRange MAX_ENEMIES).countP (breached before after)

/-- The state and generator with which `UpdateGame` calls `UpdateEnemies`
(line 234) in a tick that reaches the wave branch: after the click resolution
and the spawn step. -/
def enemiesEntry (game : GameState) (deltaTime : ℚ) (inp : Input) (rng : Rng) :
    GameState × Rng :=
  spawnStep (HandleMouseClick game inp) deltaTime rng

/-- The state and generator that this call of `UpdateEnemies` returns. -/
def enemiesExit (sqrt : ℚ → ℚ) (game : GameState) (deltaTime : ℚ) (inp : Input) (rng : Rng) :
    GameState × Rng :=
  UpdateEnemies sqrt (enemiesEntry game deltaTime inp rng).1 deltaTime
    (enemiesEntry game deltaTime inp rng).2

/-- A session grid: every cell of the last column is `CASTLE`
(`InitializeGame`, lines 62-64). -/
def lastColumnCastle (grid : Fin GRID_ROWS → Fin GRID_COLS → CellType) : Prop :=
  ∀ y : Fin GRID_ROWS, grid y ⟨GRID_COLS - 1, by decide⟩ = CellType.CASTLE

/-- Wave 1 of a session on `grid` with a single unit, not yet released: full
castle health, every slot inactive, the wave in progress. -/
def scenarioStart (grid : Fin GRID_ROWS → Fin GRID_COLS → CellType) : GameState :=
  { grid := grid
    castleHealth := 10
    wave := 1
    enemiesInWave := 1
    enemiesAlive := 1
    enemies := fun _ => idleEnemy
    spawnTimer := 0
    waveTimer := 0
    waveInProgress := true
    score := 0 }

/-- The state of the single-unit scenario while the unit walks: counters as
at the start, nothing left to release, the unit in slot 0 active, and every
active unit of speed 60 with its position at most one step past the centre of
column `GRID_COLS - 2` and its target cell in a column `<= GRID_COLS - 2`. -/
def marching (grid : Fin GRID_ROWS → Fin GRID_COLS → CellType) (deltaTime : ℚ)
    (game : GameState) : Prop :=
  game.grid = grid ∧ game.castleHealth = 10 ∧ game.wave = 1 ∧ game.enemiesInWave = 0
    ∧ game.enemiesAlive = 1 ∧ game.waveInProgress = true ∧ game.score = 0
    ∧ (game.enemies 0).active = 1
    ∧ ∀ i, (game.enemies i).active ≠ 0 →
        (game.enemies i).active = 1 ∧ (game.enemies i).speed = 60
          ∧ (game.enemies i).position.x ≤ 550 + 60 * deltaTime
          ∧ (game.enemies i).targetCell.x ≤ 5

/-- A rational stand-in for the square root that is never below the true
root: `(v + 1) / 2`. -/
def upperRoot (v : ℚ) : ℚ := (v + 1) / 2

/-! ## `InitializeGame` -/

/-- The cell `(x, y)` drawn by lines 70-71 of `InitializeGame`:
`x = GetRandomValue(0, GRID_COLS-3)`, then `y = GetRandomValue(0, GRID_ROWS-1)`,
as grid indices (both draws are in range), and the generator after the two
draws. -/
def drawCell (rng : Rng) : (Fin GRID_ROWS × Fin GRID_COLS) × Rng :=
  let dx := GetRandomValue 0 ((GRID_COLS : Int) - 3) rng
  let dy := GetRandomValue 0 ((GRID_ROWS : Int) - 1) dx.2
  ((⟨dy.1.toNat, by
      have h : dy.1 = (dx.2 0 : Int) % 5 := by simp [dy, GetRandomValue]
      show dy.1.toNat < 5
      omega⟩,
    ⟨dx.1.toNat, by
      have h : dx.1 = (rng 0 : Int) % 5 := by simp [dx, GetRandomValue]
      show dx.1.toNat < 7
      omega⟩), dy.2)

/-- The rejection loop of lines 69-72, `do { draw (x, y) } while (grid[y][x] != EMPTY)`,
run for at most `fuel` iterations: the first drawn cell that is `EMPTY` and the
generator after it, or `none` when none of the first `fuel` draws is `EMPTY`. -/
def drawEmptyCell (grid : Fin GRID_ROWS → Fin GRID_COLS → CellType) :
    Nat → Rng → Option ((Fin GRID_ROWS × Fin GRID_COLS) × Rng)
  | 0, _ => none
  | fuel + 1, rng =>
    let c := drawCell rng
    if grid c.1.1 c.1.2 ≠ CellType.EMPTY then drawEmptyCell grid fuel c.2
    else some c

/-- The assignment `grid[y][x] = OBSTACLE` of line 74. -/
def setObstacle (grid : Fin GRID_ROWS → Fin GRID_COLS → CellType)
    (cell : Fin GRID_ROWS × Fin GRID_COLS) : Fin GRID_ROWS → Fin GRID_COLS → CellType :=
  fun y x => if y = cell.1 ∧ x = cell.2 then CellType.OBSTACLE else grid y x

/-- The obstacle loop of lines 67-75 for `count` obstacles, each rejection loop
running for at most `fuel` iterations. -/
def placeObstacles (fuel : Nat) :
    Nat → (Fin GRID_ROWS → Fin GRID_COLS → CellType) → Rng →
      Option ((Fin GRID_ROWS → Fin GRID_COLS → CellType) × Rng)
  | 0, grid, rng => some (grid, rng)
  | count + 1, grid, rng =>
    match drawEmptyCell grid fuel rng with
    | none => none
    | some c => placeObstacles fuel count (setObstacle grid c.1) c.2

/-- Function `InitializeGame`, lines 53-91. The argument `game` is the
uninitialised memory of `main` (line 296): of its units only `active` is
written. The result is `none` when one of the rejection loops does not stop
within `fuel` iterations. -/
def InitializeGame (fuel : Nat) (game : GameState) (rng : Rng) : Option (GameState × Rng) :=
  match placeObstacles fuel OBSTACLE_COUNT castleGrid rng with
  | none => none
  | some r =>
    some ({ grid := r.1
            castleHealth := 10
            enemies := fun i => { game.enemies i with active := 0 }
            wave := 0
            enemiesInWave := 0
            enemiesAlive := 0
            spawnTimer := 0
            waveTimer := 3
            waveInProgress := false
            score := 0 }, r.2)

/-- A generator whose raw draws count up: 0, 1, 2, ... -/
def countingRng : Rng := fun n => n

/-- Number of `OBSTACLE` cells of a grid. -/
def obstacleCount (grid : Fin GRID_ROWS → Fin GRID_COLS → CellType) : Nat :=
  ∑ c : Fin GRID_ROWS × Fin GRID_COLS, if grid c.1 c.2 = CellType.OBSTACLE then 1 else 0

/-- The shape of a grid with `k` obstacles placed: `CASTLE` exactly in the last
column, obstacles only in columns `0..GRID_COLS-3`, exactly `k` of them, and no
cell of kind `ENEMY`. -/
def gridShape (k : Nat) (grid : Fin GRID_ROWS → Fin GRID_COLS → CellType) : Prop :=
  (∀ y x, grid y x = CellType.CASTLE ↔ x.val = GRID_COLS - 1)
    ∧ (∀ y x, grid y x = CellType.OBSTACLE → x.val ≤ GRID_COLS - 3)
    ∧ (∀ y x, grid y x ≠ CellType.ENEMY)
    ∧ obstacleCount grid = k

/-- The generator after `k` iterations of the rejection loop (two raw draws
per iteration). -/
def drawsAfter (k : Nat) (rng : Rng) : Rng := fun n => rng (n + 2 * k)

/-- A session grid with obstacles at `(x, y) = (2, 0)`, `(1, 1)` and `(2, 1)`:
around cell `(1, 0)` only the cell behind it, `(0, 0)`, is free. -/
def pocketGrid : Fin GRID_ROWS → Fin GRID_COLS → CellType :=
  fun y x =>
    if x.val = GRID_COLS - 1 then CellType.CASTLE
    else if (y.val = 0 ∧ x.val = 2) ∨ (y.val = 1 ∧ x.val = 1) ∨ (y.val = 1 ∧ x.val = 2) then
      CellType.OBSTACLE
    else CellType.EMPTY

/-! ## Reachable states and their accounting -/

/-- Number of pool slots with `active` set. -/
def activeCount (game : GameState) : Nat :=
  ∑ i : Fin MAX_ENEMIES, if (game.enemies i).active ≠ 0 then 1 else 0

/-- States reachable from `InitializeGame` by `UpdateGame` ticks with any
non-negative elapsed times, any clicks and any random draws. -/
inductive Reachable (sqrt : ℚ → ℚ) : GameState → Prop where
  | init (fuel : Nat) (memory : GameState) (rng : Rng) (r : GameState × Rng) :
      InitializeGame fuel memory rng = some r → Reachable sqrt r.1
  | tick (game : GameState) (deltaTime : ℚ) (inp : Input) (rng : Rng) :
      Reachable sqrt game → 0 ≤ deltaTime →
      Reachable sqrt (UpdateGame sqrt game deltaTime inp rng).1

/-- The counters of a session agree with the pool: `enemiesAlive` is the
number of pending releases plus the number of active slots, the pending count
is not negative, `wave` is between 0 and 5, and at most `3 * wave` units are
alive. -/
def counts (game : GameState) : Prop :=
  game.enemiesAlive = game.enemiesInWave + (activeCount game : Nat)
    ∧ 0 ≤ game.enemiesInWave ∧ 0 ≤ game.wave ∧ game.wave ≤ 5
    ∧ game.enemiesAlive ≤ 3 * game.wave

/-- The accounting invariant: `counts`, and between waves nothing is alive or
pending. -/
def accounting (game : GameState) : Prop :=
  counts game
    ∧ (game.waveInProgress = false → game.enemiesAlive = 0 ∧ game.enemiesInWave = 0)

/-- Number of units released in one tick: in a tick that runs the wave branch
of `UpdateGame`, the slots that are inactive after the click resolution and
active after the spawn step (lines 228-232); 0 in a tick that returns early or
runs between waves. -/
def releasedInTick (game : GameState) (deltaTime : ℚ) (inp : Input) (rng : Rng) : Nat :=
  if (game.castleHealth ≤ 0
      ∨ (game.wave ≥ 5 ∧ game.enemiesAlive = 0 ∧ game.waveInProgress = false))
      ∨ game.waveInProgress = false then 0
  else
    ∑ i : Fin MAX_ENEMIES,
      if ((HandleMouseClick game inp).enemies i).active = 0
          ∧ ((spawnStep (HandleMouseClick game inp) deltaTime rng).1.enemies i).active ≠ 0
      then 1 else 0

/-- Reachable states together with the number of units released since the
start of the current (or, between waves, the last) wave: 0 after
`InitializeGame`, reset to 0 by a tick that starts a wave, and increased by
`releasedInTick` in every other tick. -/
inductive ReachableReleased (sqrt : ℚ → ℚ) : GameState → Nat → Prop where
  | init (fuel : Nat) (memory : GameState) (rng : Rng) (r : GameState × Rng) :
      InitializeGame fuel memory rng = some r → ReachableReleased sqrt r.1 0
  | tick (game : GameState) (released : Nat) (deltaTime : ℚ) (inp : Input) (rng : Rng) :
      ReachableReleased sqrt game released → 0 ≤ deltaTime →
      ReachableReleased sqrt (UpdateGame sqrt game deltaTime inp rng).1
        (if game.wave < (UpdateGame sqrt game deltaTime inp rng).1.wave then 0
          else released + releasedInTick game deltaTime inp rng)

end DefendTheSpire

namespace DefendTheSpire

/-! ## Basic facts about the library functions -/

theorem UpdateEnemies_eq (sqrt : ℚ → ℚ) (game : GameState) (deltaTime : ℚ) (rng : Rng) :
    UpdateEnemies sqrt game deltaTime rng
      = (List.finRange MAX_ENEMIES).foldl (updateEnemy sqrt deltaTime) (game, rng) := rfl

attribute [irreducible] UpdateEnemies

theorem toInt_intCast (n : Int) : toInt (n : ℚ) = n := by
  unfold toInt
  split <;> simp

theorem toInt_intCast_add_one (n : Int) : toInt ((n : ℚ) + 1) = n + 1 := by
  have h : ((n : ℚ) + 1) = ((n + 1 : Int) : ℚ) := by push_cast; ring
  rw [h, toInt_intCast]

theorem toInt_intCast_sub_one (n : Int) : toInt ((n : ℚ) - 1) = n - 1 := by
  have h : ((n : ℚ) - 1) = ((n - 1 : Int) : ℚ) := by push_cast; ring
  rw [h, toInt_intCast]

theorem GetRandomValue_zero_one (rng : Rng) :
    (GetRandomValue 0 1 rng).1 = 0 ∨ (GetRandomValue 0 1 rng).1 = 1 := by
  simp only [GetRandomValue]
  norm_num
  omega

/-! ## C1: the decision order of `FindNextPathCell` -/

/-- C1. For every grid, every cell `(x, y)` and every state of the random
generator, `FindNextPathCell` returns `(x+1, y)` if that cell is walkable;
otherwise, if both `(x, y-1)` and `(x, y+1)` are walkable, `(x, y-1)` when the
draw `GetRandomValue(0, 1)` is 0 and `(x, y+1)` when it is 1 (the draw is one
of the two); otherwise the walkable one of `(x, y-1)`, `(x, y+1)` if exactly
one is walkable; otherwise `(x+1, y-1)` if walkable; otherwise `(x+1, y+1)` if
walkable; otherwise `(x, y)` itself. -/
theorem FindNextPathCell_decision_order (game : GameState) (x y : Int) (rng : Rng) :
    ((GetRandomValue 0 1 rng).1 = 0 ∨ (GetRandomValue 0 1 rng).1 = 1) ∧
    (FindNextPathCell game ⟨x, y⟩ rng).1 =
      if IsCellWalkable game (x + 1) y then (⟨((x + 1 : Int) : ℚ), y⟩ : Vector2)
      else if IsCellWalkable game x (y - 1) ∧ IsCellWalkable game x (y + 1) then
        (if (GetRandomValue 0 1 rng).1 = 0 then ⟨x, ((y - 1 : Int) : ℚ)⟩
          else ⟨x, ((y + 1 : Int) : ℚ)⟩)
      else if IsCellWalkable game x (y - 1) then ⟨x, ((y - 1 : Int) : ℚ)⟩
      else if IsCellWalkable game x (y + 1) then ⟨x, ((y + 1 : Int) : ℚ)⟩
      else if IsCellWalkable game (x + 1) (y - 1) then
        ⟨((x + 1 : Int) : ℚ), ((y - 1 : Int) : ℚ)⟩
      else if IsCellWalkable game (x + 1) (y + 1) then
        ⟨((x + 1 : Int) : ℚ), ((y + 1 : Int) : ℚ)⟩
      else ⟨x, y⟩ := by
  refine ⟨GetRandomValue_zero_one rng, ?_⟩
  simp only [FindNextPathCell, toInt_intCast, toInt_intCast_add_one, toInt_intCast_sub_one]
  push_cast
  by_cases h1 : IsCellWalkable game (x + 1) y = true
  · simp [h1]
  · by_cases hu : IsCellWalkable game x (y - 1) = true <;>
    by_cases hd : IsCellWalkable game x (y + 1) = true <;>
    by_cases hdu : IsCellWalkable game (x + 1) (y - 1) = true <;>
    by_cases hdd : IsCellWalkable game (x + 1) (y + 1) = true <;>
    simp [h1, hu, hd, hdu, hdd]

end DefendTheSpire

namespace DefendTheSpire

/-! ## C10: `IsCellWalkable` on in-bounds cells -/

/-- Counterexample to C10 as stated: on a grid whose cells hold the cell kind
`ENEMY`, the in-bounds cell `(0, 0)` is walkable although it is not `EMPTY`. -/
theorem IsCellWalkable_enemy_cell :
    IsCellWalkable { startState with grid := fun _ _ => CellType.ENEMY } 0 0 = true
    ∧ ({ startState with grid := fun _ _ => CellType.ENEMY } : GameState).grid 0 0
        ≠ CellType.EMPTY := by
  constructor
  · simp [IsCellWalkable]
  · simp

/-- C10 (amended). For every grid and every in-bounds coordinate,
`IsCellWalkable` returns true if and only if the cell at `(x, y)` is neither
`OBSTACLE` nor `CASTLE`, that is, if and only if it is `EMPTY` or `ENEMY`. -/
theorem IsCellWalkable_in_bounds (game : GameState) (y : Fin GRID_ROWS) (x : Fin GRID_COLS) :
    IsCellWalkable game ((x : Nat) : Int) ((y : Nat) : Int) = true
      ↔ (game.grid y x = CellType.EMPTY ∨ game.grid y x = CellType.ENEMY) := by
  have hx := x.isLt
  have hy := y.isLt
  have h : ¬ ((((x : Nat) : Int) < 0) ∨ (((x : Nat) : Int) ≥ GRID_COLS)
      ∨ (((y : Nat) : Int) < 0) ∨ (((y : Nat) : Int) ≥ GRID_ROWS)) := by
    simp only [GRID_COLS, GRID_ROWS] at hx hy ⊢
    omega
  simp only [IsCellWalkable, dif_neg h, Int.toNat_ofNat, Fin.eta]
  cases game.grid y x <;> simp

/-! ## C5: terminal states are fixed points of `UpdateGame` -/

theorem UpdateGame_of_terminal (sqrt : ℚ → ℚ) (game : GameState) (deltaTime : ℚ) (inp : Input)
    (rng : Rng)
    (h : game.castleHealth ≤ 0
      ∨ (game.wave ≥ 5 ∧ game.enemiesAlive = 0 ∧ game.waveInProgress = false)) :
    UpdateGame sqrt game deltaTime inp rng = (game, rng) := by
  unfold UpdateGame
  rcases h with h | h
  · rw [if_pos h]
  · by_cases hc : game.castleHealth ≤ 0
    · rw [if_pos hc]
    · rw [if_neg hc, if_pos h]

/-- C5. For every terminal state (`castleHealth <= 0`, or `wave >= 5` with
`enemiesAlive == 0` and `waveInProgress` false), every elapsed time and every
click input, `UpdateGame` returns the state unchanged in every field (and
consumes no random draw); hence any sequence of ticks leaves a terminal state
unchanged. -/
theorem UpdateGame_terminal_fixed (sqrt : ℚ → ℚ) (game : GameState) (rng : Rng)
    (h : game.castleHealth ≤ 0
      ∨ (game.wave ≥ 5 ∧ game.enemiesAlive = 0 ∧ game.waveInProgress = false)) :
    (∀ (deltaTime : ℚ) (inp : Input), UpdateGame sqrt game deltaTime inp rng = (game, rng))
    ∧ ∀ frames : List (ℚ × Input), runFrames sqrt frames (game, rng) = (game, rng) := by
  refine ⟨fun dt inp => UpdateGame_of_terminal sqrt game dt inp rng h, ?_⟩
  intro frames
  induction frames with
  | nil => rfl
  | cons f fs ih =>
    simp only [runFrames]
    rw [UpdateGame_of_terminal sqrt game f.1 f.2 rng h]
    exact ih

/-- C5 at a lost session: `startState` with `castleHealth = 0`. -/
theorem UpdateGame_terminal_fixed_witness :
    (({ startState with castleHealth := 0 } : GameState).castleHealth ≤ 0
      ∨ (({ startState with castleHealth := 0 } : GameState).wave ≥ 5
        ∧ ({ startState with castleHealth := 0 } : GameState).enemiesAlive = 0
        ∧ ({ startState with castleHealth := 0 } : GameState).waveInProgress = false))
    ∧ ((∀ (deltaTime : ℚ) (inp : Input),
        UpdateGame id { startState with castleHealth := 0 } deltaTime inp zeroRng
          = ({ startState with castleHealth := 0 }, zeroRng))
      ∧ ∀ frames : List (ℚ × Input),
        runFrames id frames ({ startState with castleHealth := 0 }, zeroRng)
          = ({ startState with castleHealth := 0 }, zeroRng)) :=
  ⟨Or.inl (le_refl _),
    UpdateGame_terminal_fixed id { startState with castleHealth := 0 } zeroRng
      (Or.inl (le_refl _))⟩

end DefendTheSpire

namespace DefendTheSpire

/-! ## C8, C9: `SpawnEnemy` -/

theorem GetRandomValue_row (rng : Rng) :
    0 ≤ (GetRandomValue 0 ((GRID_ROWS : Int) - 1) rng).1
      ∧ (GetRandomValue 0 ((GRID_ROWS : Int) - 1) rng).1 ≤ (GRID_ROWS : Int) - 1 := by
  simp only [GetRandomValue]
  norm_num
  omega

theorem toInt_half : toInt ((1 : ℚ) / 2) = 0 := by
  unfold toInt
  rw [if_pos (by norm_num)]
  rw [Int.floor_eq_iff]
  norm_num

theorem toInt_row_center (r : Int) (hr : 0 ≤ r) :
    toInt (((r : ℚ) * 100 + 50) / 100) = r := by
  have h0 : (0 : ℚ) ≤ (r : ℚ) := by exact_mod_cast hr
  unfold toInt
  rw [if_pos (by positivity)]
  rw [Int.floor_eq_iff]
  constructor
  · linarith
  · linarith

theorem spawnedEnemy_eq (wave r : Int) (hr : 0 ≤ r) :
    spawnedEnemy wave r =
      { position := ⟨50, (r : ℚ) * 100 + 50⟩
        targetCell := ⟨0, r⟩
        health := 1
        speed := 50 + 10 * wave
        active := 1
        worth := 10 } := by
  simp only [spawnedEnemy, GetGridPosition, CELL_SIZE]
  norm_num
  exact ⟨⟨toInt_half, toInt_row_center r hr⟩, by ring⟩

/-- C8. For every state in which at least one pool slot is inactive and every
state of the random generator, with `r` the row draw `GetRandomValue(0, GRID_ROWS-1)`
(which lies in `[0, GRID_ROWS-1]`): `SpawnEnemy` writes exactly the
lowest-indexed inactive slot with position `(50, r*100 + 50)`, targetCell
`(0, r)`, health 1, speed `50 + 10 * wave`, worth 10, active 1; decreases
`enemiesInWave` by exactly 1; and leaves every other slot and every other field
of the state (grid, castleHealth, enemiesAlive, wave, score, timers) unchanged. -/
theorem SpawnEnemy_first_inactive (game : GameState) (rng : Rng)
    (h : ∃ i, (game.enemies i).active = 0) :
    ∃ i : Fin MAX_ENEMIES,
      (game.enemies i).active = 0
      ∧ (∀ j, j < i → (game.enemies j).active ≠ 0)
      ∧ 0 ≤ (GetRandomValue 0 ((GRID_ROWS : Int) - 1) rng).1
      ∧ (GetRandomValue 0 ((GRID_ROWS : Int) - 1) rng).1 ≤ (GRID_ROWS : Int) - 1
      ∧ SpawnEnemy game rng =
          ({ game with
              enemies := Function.update game.enemies i
                { position := ⟨50, ((GetRandomValue 0 ((GRID_ROWS : Int) - 1) rng).1 : ℚ) * 100 + 50⟩
                  targetCell := ⟨0, ((GetRandomValue 0 ((GRID_ROWS : Int) - 1) rng).1 : ℚ)⟩
                  health := 1
                  speed := 50 + 10 * game.wave
                  active := 1
                  worth := 10 }
              enemiesInWave := game.enemiesInWave - 1 },
            (GetRandomValue 0 ((GRID_ROWS : Int) - 1) rng).2) := by
  have hr := GetRandomValue_row rng
  cases hf : Fin.find (fun i => (game.enemies i).active = 0) with
  | none =>
    rw [Fin.find_eq_none_iff] at hf
    obtain ⟨i, hi⟩ := h
    exact absurd hi (hf i)
  | some i =>
    refine ⟨i, Fin.find_spec _ hf, fun j hj => Fin.find_min hf hj, hr.1, hr.2, ?_⟩
    simp only [SpawnEnemy, hf]
    rw [spawnedEnemy_eq _ _ hr.1]

/-- C8 at `startState`, whose slots are all inactive. -/
theorem SpawnEnemy_first_inactive_witness :
    (∃ i, (startState.enemies i).active = 0)
    ∧ ∃ i : Fin MAX_ENEMIES,
      (startState.enemies i).active = 0
      ∧ (∀ j, j < i → (startState.enemies j).active ≠ 0)
      ∧ 0 ≤ (GetRandomValue 0 ((GRID_ROWS : Int) - 1) zeroRng).1
      ∧ (GetRandomValue 0 ((GRID_ROWS : Int) - 1) zeroRng).1 ≤ (GRID_ROWS : Int) - 1
      ∧ SpawnEnemy startState zeroRng =
          ({ startState with
              enemies := Function.update startState.enemies i
                { position :=
                    ⟨50, ((GetRandomValue 0 ((GRID_ROWS : Int) - 1) zeroRng).1 : ℚ) * 100 + 50⟩
                  targetCell := ⟨0, ((GetRandomValue 0 ((GRID_ROWS : Int) - 1) zeroRng).1 : ℚ)⟩
                  health := 1
                  speed := 50 + 10 * startState.wave
                  active := 1
                  worth := 10 }
              enemiesInWave := startState.enemiesInWave - 1 },
            (GetRandomValue 0 ((GRID_ROWS : Int) - 1) zeroRng).2) :=
  ⟨⟨0, rfl⟩, SpawnEnemy_first_inactive startState zeroRng ⟨0, rfl⟩⟩

theorem SpawnEnemy_of_all_active (game : GameState) (rng : Rng)
    (h : ∀ i, (game.enemies i).active ≠ 0) : SpawnEnemy game rng = (game, rng) := by
  have hf : Fin.find (fun i => (game.enemies i).active = 0) = none :=
    Fin.find_eq_none_iff.2 h
  simp only [SpawnEnemy, hf]

/-- Counterexample to C9 as stated: with every slot active and three units
pending, the spawn attempt leaves
`enemiesInWave` at 3, both in `SpawnEnemy` and in the spawn step of `UpdateGame`
that calls it (there `spawnTimer <= 0`). -/
theorem SpawnEnemy_fullPool_keeps_pending :
    (∀ i, (fullPool.enemies i).active ≠ 0)
    ∧ fullPool.enemiesInWave > 0
    ∧ fullPool.spawnTimer ≤ 0
    ∧ (SpawnEnemy fullPool zeroRng).1.enemiesInWave = 3
    ∧ (SpawnEnemy fullPool zeroRng).1.enemiesInWave ≠ fullPool.enemiesInWave - 1
    ∧ (spawnStep fullPool (1 / 60) zeroRng).1.enemiesInWave ≠ fullPool.enemiesInWave - 1 := by
  have hall : ∀ i, (fullPool.enemies i).active ≠ 0 := by
    intro i
    simp [fullPool, idleEnemy]
  have hs := SpawnEnemy_of_all_active fullPool zeroRng hall
  refine ⟨hall, by simp [fullPool], by simp [fullPool], ?_, ?_, ?_⟩
  · rw [hs]; rfl
  · rw [hs]; simp [fullPool]
  · simp only [spawnStep, hs]
    simp [fullPool]

/-- C9 (amended). For every state in which all `MAX_ENEMIES` slots are active,
a spawn attempt changes nothing: `SpawnEnemy` returns the state unchanged in
every field, so no unit changes and `enemiesInWave` is not decremented, and no
random draw is consumed; the spawn step of `UpdateGame` (taken when
`enemiesInWave > 0` and `spawnTimer <= 0`) then only resets the cadence timer
and leaves `enemiesInWave` and every unit unchanged. -/
theorem SpawnEnemy_pool_full_noop (game : GameState) (rng : Rng)
    (h : ∀ i, (game.enemies i).active ≠ 0) :
    SpawnEnemy game rng = (game, rng)
    ∧ ∀ deltaTime : ℚ, game.enemiesInWave > 0 → game.spawnTimer ≤ 0 →
        spawnStep game deltaTime rng = ({ game with spawnTimer := 1 / 2 - deltaTime }, rng) := by
  have hs := SpawnEnemy_of_all_active game rng h
  refine ⟨hs, ?_⟩
  intro dt h1 h2
  simp only [spawnStep, hs, if_pos (And.intro h1 h2)]

/-- C9 (amended) at `fullPool`. -/
theorem SpawnEnemy_pool_full_noop_witness :
    (∀ i, (fullPool.enemies i).active ≠ 0)
    ∧ (SpawnEnemy fullPool zeroRng = (fullPool, zeroRng)
      ∧ ∀ deltaTime : ℚ, fullPool.enemiesInWave > 0 → fullPool.spawnTimer ≤ 0 →
          spawnStep fullPool deltaTime zeroRng
            = ({ fullPool with spawnTimer := 1 / 2 - deltaTime }, zeroRng)) :=
  ⟨fun i => by simp [fullPool, idleEnemy],
    SpawnEnemy_pool_full_noop fullPool zeroRng (fun i => by simp [fullPool, idleEnemy])⟩

end DefendTheSpire

namespace DefendTheSpire

/-! ## C3: `HandleMouseClick` -/

theorem HandleMouseClick_of_find_some (game : GameState) (inp : Input) (i : Fin MAX_ENEMIES)
    (hp : inp.pressed = true) (hx : inp.mousePos.x < 700)
    (hf : Fin.find (fun i => (game.enemies i).active ≠ 0
      ∧ CheckCollisionPointCircle inp.mousePos (game.enemies i).position 20 = true) = some i) :
    HandleMouseClick game inp =
      { game with
          enemies := Function.update game.enemies i { game.enemies i with active := 0 }
          enemiesAlive := game.enemiesAlive - 1
          score := game.score + (game.enemies i).worth } := by
  have hx2 : inp.mousePos.x < (((GRID_COLS : Int) * CELL_SIZE : Int) : ℚ) := by
    norm_num [GRID_COLS, CELL_SIZE]; exact hx
  simp only [HandleMouseClick, hp, if_true, if_pos hx2, hf]

theorem HandleMouseClick_of_find_none (game : GameState) (inp : Input)
    (hf : Fin.find (fun i => (game.enemies i).active ≠ 0
      ∧ CheckCollisionPointCircle inp.mousePos (game.enemies i).position 20 = true) = none) :
    HandleMouseClick game inp = game := by
  unfold HandleMouseClick
  split
  · split
    · rw [hf]
    · rfl
  · rfl

theorem HandleMouseClick_not_pressed (game : GameState) (inp : Input)
    (hp : inp.pressed = false) : HandleMouseClick game inp = game := by
  simp [HandleMouseClick, hp]

/-- What a click can do to the state: nothing, or deactivate one slot,
decrement `enemiesAlive` and add the slot's worth to the score. -/
theorem HandleMouseClick_cases (game : GameState) (inp : Input) :
    HandleMouseClick game inp = game
    ∨ ∃ i, (game.enemies i).active ≠ 0 ∧
      HandleMouseClick game inp =
        { game with
            enemies := Function.update game.enemies i { game.enemies i with active := 0 }
            enemiesAlive := game.enemiesAlive - 1
            score := game.score + (game.enemies i).worth } := by
  unfold HandleMouseClick
  split
  · split
    · cases hf : Fin.find (fun i => (game.enemies i).active ≠ 0
          ∧ CheckCollisionPointCircle inp.mousePos (game.enemies i).position 20 = true) with
      | none => exact Or.inl rfl
      | some i => exact Or.inr ⟨i, (Fin.find_spec _ hf).1, rfl⟩
    · exact Or.inl rfl
  · exact Or.inl rfl

/-- C3. For every state and every click at a point `p` inside the grid area
(`0 <= p.x < 700`, `0 <= p.y < 500`): if some active unit lies within the hit
radius 20 of `p` (`isHit`), then for the lowest-indexed such unit `i` the
result is the input state with slot `i` set inactive (its other fields
unchanged), `enemiesAlive` decreased by 1 and `score` increased by the worth of
unit `i`, every other field and every other slot being unchanged; if no active
unit is within the radius, the state is unchanged. -/
theorem HandleMouseClick_first_hit (game : GameState) (p : Vector2)
    (hx : 0 ≤ p.x ∧ p.x < 700) (hy : 0 ≤ p.y ∧ p.y < 500) :
    ((∃ i, isHit game p i) →
      ∃ i, isHit game p i ∧ (∀ j, j < i → ¬ isHit game p j)
        ∧ HandleMouseClick game ⟨true, p⟩ =
          { game with
              enemies := Function.update game.enemies i { game.enemies i with active := 0 }
              enemiesAlive := game.enemiesAlive - 1
              score := game.score + (game.enemies i).worth })
    ∧ ((¬ ∃ i, isHit game p i) → HandleMouseClick game ⟨true, p⟩ = game) := by
  have _ := hy
  constructor
  · rintro ⟨k, hk⟩
    cases hf : Fin.find (fun i => (game.enemies i).active ≠ 0
        ∧ CheckCollisionPointCircle p (game.enemies i).position 20 = true) with
    | none =>
      rw [Fin.find_eq_none_iff] at hf
      exact absurd hk (hf k)
    | some i =>
      exact ⟨i, Fin.find_spec _ hf, fun j hj => Fin.find_min hf hj,
        HandleMouseClick_of_find_some game ⟨true, p⟩ i rfl hx.2 hf⟩
  · intro hno
    apply HandleMouseClick_of_find_none
    rw [Fin.find_eq_none_iff]
    intro i hi
    exact hno ⟨i, hi⟩

theorem clickTarget_isHit_zero : isHit clickTarget ⟨50, 50⟩ 0 := by
  constructor
  · simp [clickTarget, idleEnemy]
  · simp [clickTarget, idleEnemy, CheckCollisionPointCircle]

/-- C3 at `clickTarget` with a click at `(50, 50)`. -/
theorem HandleMouseClick_first_hit_witness :
    ((0 : ℚ) ≤ (⟨50, 50⟩ : Vector2).x ∧ (⟨50, 50⟩ : Vector2).x < 700)
    ∧ ((0 : ℚ) ≤ (⟨50, 50⟩ : Vector2).y ∧ (⟨50, 50⟩ : Vector2).y < 500)
    ∧ (((∃ i, isHit clickTarget ⟨50, 50⟩ i) →
        ∃ i, isHit clickTarget ⟨50, 50⟩ i ∧ (∀ j, j < i → ¬ isHit clickTarget ⟨50, 50⟩ j)
          ∧ HandleMouseClick clickTarget ⟨true, ⟨50, 50⟩⟩ =
            { clickTarget with
                enemies := Function.update clickTarget.enemies i
                  { clickTarget.enemies i with active := 0 }
                enemiesAlive := clickTarget.enemiesAlive - 1
                score := clickTarget.score + (clickTarget.enemies i).worth })
      ∧ ((¬ ∃ i, isHit clickTarget ⟨50, 50⟩ i) →
          HandleMouseClick clickTarget ⟨true, ⟨50, 50⟩⟩ = clickTarget)) :=
  ⟨by norm_num, by norm_num,
    HandleMouseClick_first_hit clickTarget ⟨50, 50⟩ (by norm_num) (by norm_num)⟩

end DefendTheSpire

namespace DefendTheSpire

/-! ## The loop of `UpdateEnemies`: fields it does not write -/

theorem sameOutsideUnits_refl (a : GameState) : sameOutsideUnits a a :=
  ⟨rfl, rfl, rfl, rfl, rfl, rfl, rfl⟩

theorem sameOutsideUnits_trans {a b c : GameState} (h1 : sameOutsideUnits a b)
    (h2 : sameOutsideUnits b c) : sameOutsideUnits a c := by
  obtain ⟨a1, a2, a3, a4, a5, a6, a7⟩ := h1
  obtain ⟨b1, b2, b3, b4, b5, b6, b7⟩ := h2
  exact ⟨b1.trans a1, b2.trans a2, b3.trans a3, b4.trans a4, b5.trans a5, b6.trans a6,
    b7.trans a7⟩

theorem updateEnemy_sameOutsideUnits (sqrt : ℚ → ℚ) (deltaTime : ℚ) (st : GameState × Rng)
    (i : Fin MAX_ENEMIES) : sameOutsideUnits st.1 (updateEnemy sqrt deltaTime st i).1 := by
  unfold updateEnemy
  dsimp only
  split_ifs <;> exact ⟨rfl, rfl, rfl, rfl, rfl, rfl, rfl⟩

theorem foldl_updateEnemy_sameOutsideUnits (sqrt : ℚ → ℚ) (deltaTime : ℚ)
    (l : List (Fin MAX_ENEMIES)) (st : GameState × Rng) :
    sameOutsideUnits st.1 (l.foldl (updateEnemy sqrt deltaTime) st).1 := by
  induction l generalizing st with
  | nil => exact sameOutsideUnits_refl _
  | cons a t ih =>
    rw [List.foldl_cons]
    exact sameOutsideUnits_trans (updateEnemy_sameOutsideUnits sqrt deltaTime st a) (ih _)

theorem UpdateEnemies_sameOutsideUnits (sqrt : ℚ → ℚ) (game : GameState) (deltaTime : ℚ)
    (rng : Rng) : sameOutsideUnits game (UpdateEnemies sqrt game deltaTime rng).1 := by
  rw [UpdateEnemies_eq]
  exact foldl_updateEnemy_sameOutsideUnits sqrt deltaTime _ (game, rng)

end DefendTheSpire

namespace DefendTheSpire

/-! ## A tick between waves -/

theorem HandleMouseClick_scheduler (game : GameState) (inp : Input) :
    (HandleMouseClick game inp).waveInProgress = game.waveInProgress
    ∧ (HandleMouseClick game inp).waveTimer = game.waveTimer
    ∧ (HandleMouseClick game inp).wave = game.wave
    ∧ (HandleMouseClick game inp).enemiesInWave = game.enemiesInWave
    ∧ (HandleMouseClick game inp).castleHealth = game.castleHealth
    ∧ (HandleMouseClick game inp).spawnTimer = game.spawnTimer
    ∧ (HandleMouseClick game inp).grid = game.grid := by
  rcases HandleMouseClick_cases game inp with h | ⟨i, _, h⟩ <;> rw [h] <;> simp

theorem HandleMouseClick_units (game : GameState) (inp : Input) (i : Fin MAX_ENEMIES) :
    ((HandleMouseClick game inp).enemies i).position = (game.enemies i).position
    ∧ ((HandleMouseClick game inp).enemies i).targetCell = (game.enemies i).targetCell
    ∧ ((game.enemies i).active = 0 → ((HandleMouseClick game inp).enemies i).active = 0) := by
  rcases HandleMouseClick_cases game inp with h | ⟨k, _, h⟩
  · rw [h]; simp
  · rw [h]
    by_cases hik : i = k
    · subst hik; simp
    · simp [Function.update_noteq hik]

theorem UpdateGame_idle (sqrt : ℚ → ℚ) (game : GameState) (deltaTime : ℚ) (inp : Input)
    (rng : Rng)
    (hnt : ¬ (game.castleHealth ≤ 0
      ∨ (game.wave ≥ 5 ∧ game.enemiesAlive = 0 ∧ game.waveInProgress = false)))
    (hw : game.waveInProgress = false) :
    UpdateGame sqrt game deltaTime inp rng =
      (if game.waveTimer - deltaTime ≤ 0 ∧ game.wave < 5 then
        SpawnWave { HandleMouseClick game inp with waveTimer := game.waveTimer - deltaTime }
       else { HandleMouseClick game inp with waveTimer := game.waveTimer - deltaTime }, rng) := by
  obtain ⟨c1, c2, c3, _⟩ := HandleMouseClick_scheduler game inp
  have h1 : ¬ game.castleHealth ≤ 0 := fun h => hnt (Or.inl h)
  have h2 : ¬ (game.wave ≥ 5 ∧ game.enemiesAlive = 0 ∧ game.waveInProgress = false) :=
    fun h => hnt (Or.inr h)
  unfold UpdateGame
  rw [if_neg h1, if_neg h2]
  simp only [c1, c2, c3, hw, if_true]
  split <;> rfl

theorem startState_not_terminal :
    ¬ (startState.castleHealth ≤ 0
      ∨ (startState.wave ≥ 5 ∧ startState.enemiesAlive = 0
        ∧ startState.waveInProgress = false)) := by
  simp [startState]

/-! ## C7: the end of a wave -/

theorem SpawnEnemy_scheduler (game : GameState) (rng : Rng) :
    (SpawnEnemy game rng).1.waveInProgress = game.waveInProgress
    ∧ (SpawnEnemy game rng).1.waveTimer = game.waveTimer
    ∧ (SpawnEnemy game rng).1.castleHealth = game.castleHealth
    ∧ (SpawnEnemy game rng).1.enemiesAlive = game.enemiesAlive
    ∧ (SpawnEnemy game rng).1.score = game.score
    ∧ (SpawnEnemy game rng).1.grid = game.grid
    ∧ (SpawnEnemy game rng).1.wave = game.wave := by
  unfold SpawnEnemy
  split <;> exact ⟨rfl, rfl, rfl, rfl, rfl, rfl, rfl⟩

theorem spawnStep_scheduler (game : GameState) (deltaTime : ℚ) (rng : Rng) :
    (spawnStep game deltaTime rng).1.waveInProgress = game.waveInProgress
    ∧ (spawnStep game deltaTime rng).1.waveTimer = game.waveTimer
    ∧ (spawnStep game deltaTime rng).1.castleHealth = game.castleHealth
    ∧ (spawnStep game deltaTime rng).1.enemiesAlive = game.enemiesAlive
    ∧ (spawnStep game deltaTime rng).1.score = game.score
    ∧ (spawnStep game deltaTime rng).1.grid = game.grid
    ∧ (spawnStep game deltaTime rng).1.wave = game.wave := by
  obtain ⟨s1, s2, s3, s4, s5, s6, s7⟩ := SpawnEnemy_scheduler game rng
  unfold spawnStep
  split_ifs
  · exact ⟨s1, s2, s3, s4, s5, s6, s7⟩
  · exact ⟨rfl, rfl, rfl, rfl, rfl, rfl, rfl⟩

theorem UpdateGame_wave (sqrt : ℚ → ℚ) (game : GameState) (deltaTime : ℚ) (inp : Input)
    (rng : Rng)
    (hnt : ¬ (game.castleHealth ≤ 0
      ∨ (game.wave ≥ 5 ∧ game.enemiesAlive = 0 ∧ game.waveInProgress = false)))
    (hw : game.waveInProgress = true) :
    UpdateGame sqrt game deltaTime inp rng =
      if (UpdateEnemies sqrt (spawnStep (HandleMouseClick game inp) deltaTime rng).1 deltaTime
            (spawnStep (HandleMouseClick game inp) deltaTime rng).2).1.enemiesAlive = 0
          ∧ (UpdateEnemies sqrt (spawnStep (HandleMouseClick game inp) deltaTime rng).1 deltaTime
            (spawnStep (HandleMouseClick game inp) deltaTime rng).2).1.enemiesInWave = 0 then
        ({ (UpdateEnemies sqrt (spawnStep (HandleMouseClick game inp) deltaTime rng).1 deltaTime
            (spawnStep (HandleMouseClick game inp) deltaTime rng).2).1 with
            waveInProgress := false, waveTimer := 3 },
          (UpdateEnemies sqrt (spawnStep (HandleMouseClick game inp) deltaTime rng).1 deltaTime
            (spawnStep (HandleMouseClick game inp) deltaTime rng).2).2)
      else UpdateEnemies sqrt (spawnStep (HandleMouseClick game inp) deltaTime rng).1 deltaTime
            (spawnStep (HandleMouseClick game inp) deltaTime rng).2 := by
  obtain ⟨c1, _⟩ := HandleMouseClick_scheduler game inp
  have h1 : ¬ game.castleHealth ≤ 0 := fun h => hnt (Or.inl h)
  have h2 : ¬ (game.wave ≥ 5 ∧ game.enemiesAlive = 0 ∧ game.waveInProgress = false) :=
    fun h => hnt (Or.inr h)
  have h3 : ¬ (HandleMouseClick game inp).waveInProgress = false := by
    rw [c1, hw]; simp
  unfold UpdateGame
  rw [if_neg h1, if_neg h2]
  simp only [if_neg h3]

/-- C7. For every non-terminal state with `waveInProgress` true, after
`UpdateGame`: `waveInProgress` is false and `waveTimer = 3.0` if and only if,
at the end of that tick, `enemiesInWave == 0` and `enemiesAlive == 0`;
otherwise `waveInProgress` remains true and `waveTimer` is unchanged. In
particular, when all units have been released (`enemiesInWave == 0`) but not
all resolved (`enemiesAlive != 0`), the wave stays in progress. -/
theorem UpdateGame_wave_end (sqrt : ℚ → ℚ) (game : GameState) (deltaTime : ℚ) (inp : Input)
    (rng : Rng)
    (hnt : ¬ (game.castleHealth ≤ 0
      ∨ (game.wave ≥ 5 ∧ game.enemiesAlive = 0 ∧ game.waveInProgress = false)))
    (hw : game.waveInProgress = true) :
    (((UpdateGame sqrt game deltaTime inp rng).1.waveInProgress = false
        ∧ (UpdateGame sqrt game deltaTime inp rng).1.waveTimer = 3)
      ↔ ((UpdateGame sqrt game deltaTime inp rng).1.enemiesInWave = 0
        ∧ (UpdateGame sqrt game deltaTime inp rng).1.enemiesAlive = 0))
    ∧ (¬ ((UpdateGame sqrt game deltaTime inp rng).1.enemiesInWave = 0
        ∧ (UpdateGame sqrt game deltaTime inp rng).1.enemiesAlive = 0) →
        (UpdateGame sqrt game deltaTime inp rng).1.waveInProgress = true
        ∧ (UpdateGame sqrt game deltaTime inp rng).1.waveTimer = game.waveTimer)
    ∧ ((UpdateGame sqrt game deltaTime inp rng).1.enemiesInWave = 0
        ∧ (UpdateGame sqrt game deltaTime inp rng).1.enemiesAlive ≠ 0 →
        (UpdateGame sqrt game deltaTime inp rng).1.waveInProgress = true) := by
  obtain ⟨c1, c2, _⟩ := HandleMouseClick_scheduler game inp
  obtain ⟨s1, s2, _⟩ := spawnStep_scheduler (HandleMouseClick game inp) deltaTime rng
  obtain ⟨_, _, _, _, u5, u6, _⟩ := UpdateEnemies_sameOutsideUnits sqrt
    (spawnStep (HandleMouseClick game inp) deltaTime rng).1 deltaTime
    (spawnStep (HandleMouseClick game inp) deltaTime rng).2
  have hu := UpdateGame_wave sqrt game deltaTime inp rng hnt hw
  have hwip : (UpdateEnemies sqrt (spawnStep (HandleMouseClick game inp) deltaTime rng).1
      deltaTime (spawnStep (HandleMouseClick game inp) deltaTime rng).2).1.waveInProgress
      = true := by rw [u6, s1, c1, hw]
  have hwt : (UpdateEnemies sqrt (spawnStep (HandleMouseClick game inp) deltaTime rng).1
      deltaTime (spawnStep (HandleMouseClick game inp) deltaTime rng).2).1.waveTimer
      = game.waveTimer := by rw [u5, s2, c2]
  generalize UpdateEnemies sqrt (spawnStep (HandleMouseClick game inp) deltaTime rng).1
      deltaTime (spawnStep (HandleMouseClick game inp) deltaTime rng).2 = U at hu hwip hwt
  rw [hu]
  by_cases hc : U.1.enemiesAlive = 0 ∧ U.1.enemiesInWave = 0
  · rw [if_pos hc]
    dsimp only
    exact ⟨⟨fun _ => ⟨hc.2, hc.1⟩, fun _ => ⟨rfl, rfl⟩⟩, fun hn => absurd ⟨hc.2, hc.1⟩ hn,
      fun h => absurd hc.1 h.2⟩
  · rw [if_neg hc]
    refine ⟨⟨fun h => ?_, fun h => absurd ⟨h.2, h.1⟩ hc⟩, fun _ => ⟨hwip, hwt⟩, fun _ => hwip⟩
    rw [hwip] at h
    exact absurd h.1 (by simp)

/-- C7 at `fullPool`, where wave 1 is in progress. -/
theorem UpdateGame_wave_end_witness :
    ¬ (fullPool.castleHealth ≤ 0
      ∨ (fullPool.wave ≥ 5 ∧ fullPool.enemiesAlive = 0 ∧ fullPool.waveInProgress = false))
    ∧ fullPool.waveInProgress = true
    ∧ (((UpdateGame id fullPool (1 / 60) noClick zeroRng).1.waveInProgress = false
        ∧ (UpdateGame id fullPool (1 / 60) noClick zeroRng).1.waveTimer = 3)
      ↔ ((UpdateGame id fullPool (1 / 60) noClick zeroRng).1.enemiesInWave = 0
        ∧ (UpdateGame id fullPool (1 / 60) noClick zeroRng).1.enemiesAlive = 0)) :=
  ⟨by simp [fullPool, startState], rfl,
    (UpdateGame_wave_end id fullPool (1 / 60) noClick zeroRng
      (by simp [fullPool, startState]) rfl).1⟩

/-! ## The loop of `UpdateEnemies`: slots and counters -/

theorem updateEnemy_other (sqrt : ℚ → ℚ) (deltaTime : ℚ) (st : GameState × Rng)
    (i j : Fin MAX_ENEMIES) (hji : j ≠ i) :
    (updateEnemy sqrt deltaTime st i).1.enemies j = st.1.enemies j := by
  unfold updateEnemy
  dsimp only
  split_ifs <;> simp [Function.update_noteq hji]

theorem foldl_updateEnemy_untouched (sqrt : ℚ → ℚ) (deltaTime : ℚ)
    (l : List (Fin MAX_ENEMIES)) (st : GameState × Rng) (j : Fin MAX_ENEMIES) (hj : j ∉ l) :
    (l.foldl (updateEnemy sqrt deltaTime) st).1.enemies j = st.1.enemies j := by
  induction l generalizing st with
  | nil => rfl
  | cons a t ih =>
    rw [List.foldl_cons, ih _ (fun h => hj (List.mem_cons_of_mem _ h))]
    exact updateEnemy_other sqrt deltaTime st a j (fun h => hj (h ▸ List.mem_cons_self _ _))

/-- Effect of one loop iteration on its own slot and on the counters. -/
theorem updateEnemy_slot (sqrt : ℚ → ℚ) (deltaTime : ℚ) (st : GameState × Rng)
    (i : Fin MAX_ENEMIES) :
    ((st.1.enemies i).active = 0 → updateEnemy sqrt deltaTime st i = st)
    ∧ ((st.1.enemies i).active ≠ 0 →
        (((updateEnemy sqrt deltaTime st i).1.enemies i).active = (st.1.enemies i).active
          ∧ ((updateEnemy sqrt deltaTime st i).1.enemies i).position.x < 600
          ∧ (updateEnemy sqrt deltaTime st i).1.castleHealth = st.1.castleHealth
          ∧ (updateEnemy sqrt deltaTime st i).1.enemiesAlive = st.1.enemiesAlive)
        ∨ (((updateEnemy sqrt deltaTime st i).1.enemies i).active = 0
          ∧ 600 ≤ ((updateEnemy sqrt deltaTime st i).1.enemies i).position.x
          ∧ (updateEnemy sqrt deltaTime st i).1.castleHealth = st.1.castleHealth - 1
          ∧ (updateEnemy sqrt deltaTime st i).1.enemiesAlive = st.1.enemiesAlive - 1)) := by
  constructor
  · intro h
    unfold updateEnemy
    dsimp only
    rw [if_pos h]
  · intro h
    unfold updateEnemy
    dsimp only
    rw [if_neg h]
    split_ifs with hb
    · right
      refine ⟨by simp, ?_, rfl, rfl⟩
      simp only [Function.update_same]
      norm_num [GRID_COLS, CELL_SIZE] at hb
      exact hb
    · left
      refine ⟨by simp, ?_, rfl, rfl⟩
      simp only [Function.update_same]
      norm_num [GRID_COLS, CELL_SIZE] at hb
      exact hb

/-- A relation between the old and the new content of a slot that holds for
every single loop iteration holds for the whole loop, at every slot the loop
visits exactly once. -/
theorem foldl_updateEnemy_slot_rel (sqrt : ℚ → ℚ) (deltaTime : ℚ) (Q : Enemy → Enemy → Prop)
    (hQ : ∀ (st : GameState × Rng) (i : Fin MAX_ENEMIES),
      Q (st.1.enemies i) ((updateEnemy sqrt deltaTime st i).1.enemies i))
    (l : List (Fin MAX_ENEMIES)) (hl : l.Nodup) (st : GameState × Rng)
    (i : Fin MAX_ENEMIES) (hi : i ∈ l) :
    Q (st.1.enemies i) ((l.foldl (updateEnemy sqrt deltaTime) st).1.enemies i) := by
  induction l generalizing st with
  | nil => exact absurd hi (List.not_mem_nil i)
  | cons a t ih =>
    rw [List.nodup_cons] at hl
    rw [List.foldl_cons]
    rcases List.mem_cons.1 hi with hia | hit
    · subst hia
      rw [foldl_updateEnemy_untouched sqrt deltaTime t _ i hl.1]
      exact hQ st i
    · have hne : i ≠ a := fun h => hl.1 (h ▸ hit)
      have h := ih hl.2 (updateEnemy sqrt deltaTime st a) hit
      rw [updateEnemy_other sqrt deltaTime st a i hne] at h
      exact h

/-- The counters after the loop: each of `castleHealth` and `enemiesAlive` has
dropped by the number of visited slots that went from active to inactive. -/
theorem foldl_updateEnemy_counters (sqrt : ℚ → ℚ) (deltaTime : ℚ)
    (l : List (Fin MAX_ENEMIES)) (hl : l.Nodup) (st : GameState × Rng) :
    (l.foldl (updateEnemy sqrt deltaTime) st).1.castleHealth
        = st.1.castleHealth
          - (l.countP (breached st.1 (l.foldl (updateEnemy sqrt deltaTime) st).1) : Nat)
    ∧ (l.foldl (updateEnemy sqrt deltaTime) st).1.enemiesAlive
        = st.1.enemiesAlive
          - (l.countP (breached st.1 (l.foldl (updateEnemy sqrt deltaTime) st).1) : Nat) := by
  induction l generalizing st with
  | nil => simp
  | cons a t ih =>
    rw [List.nodup_cons] at hl
    obtain ⟨ih1, ih2⟩ := ih hl.2 (updateEnemy sqrt deltaTime st a)
    have hrest : t.countP (breached st.1
          (t.foldl (updateEnemy sqrt deltaTime) (updateEnemy sqrt deltaTime st a)).1)
        = t.countP (breached (updateEnemy sqrt deltaTime st a).1
          (t.foldl (updateEnemy sqrt deltaTime) (updateEnemy sqrt deltaTime st a)).1) := by
      apply List.countP_congr
      intro j hj
      have hne : j ≠ a := fun h => hl.1 (h ▸ hj)
      simp only [breached, updateEnemy_other sqrt deltaTime st a j hne]
    have hslot : ((t.foldl (updateEnemy sqrt deltaTime)
          (updateEnemy sqrt deltaTime st a)).1.enemies a)
        = (updateEnemy sqrt deltaTime st a).1.enemies a :=
      foldl_updateEnemy_untouched sqrt deltaTime t _ a hl.1
    rw [List.foldl_cons, List.countP_cons, hrest, ih1, ih2]
    simp only [breached, hslot]
    obtain ⟨hidle, hact⟩ := updateEnemy_slot sqrt deltaTime st a
    by_cases h0 : (st.1.enemies a).active = 0
    · rw [hidle h0]
      simp [h0]
    · rcases hact h0 with ⟨e1, _, e3, e4⟩ | ⟨e1, _, e3, e4⟩
      · rw [e3, e4]
        have h1 : ((updateEnemy sqrt deltaTime st a).1.enemies a).active ≠ 0 := by
          rw [e1]; exact h0
        simp [h0, h1]
      · rw [e3, e4]
        simp only [h0, e1, ne_eq, not_false_eq_true, decide_True, Bool.and_self, if_true]
        push_cast
        constructor <;> ring

/-! ## C4: breaches and `castleHealth` -/

theorem UpdateEnemies_counters (sqrt : ℚ → ℚ) (game : GameState) (deltaTime : ℚ) (rng : Rng) :
    (UpdateEnemies sqrt game deltaTime rng).1.castleHealth
        = game.castleHealth - (breachCount game (UpdateEnemies sqrt game deltaTime rng).1 : Nat)
    ∧ (UpdateEnemies sqrt game deltaTime rng).1.enemiesAlive
        = game.enemiesAlive
          - (breachCount game (UpdateEnemies sqrt game deltaTime rng).1 : Nat) := by
  rw [UpdateEnemies_eq]
  exact foldl_updateEnemy_counters sqrt deltaTime _ (List.nodup_finRange _) (game, rng)

theorem UpdateEnemies_goal_edge (sqrt : ℚ → ℚ) (game : GameState) (deltaTime : ℚ) (rng : Rng)
    (i : Fin MAX_ENEMIES) :
    ((game.enemies i).active = 0 →
      (UpdateEnemies sqrt game deltaTime rng).1.enemies i = game.enemies i)
    ∧ ((game.enemies i).active ≠ 0 →
      (((UpdateEnemies sqrt game deltaTime rng).1.enemies i).active = 0
        ↔ 600 ≤ ((UpdateEnemies sqrt game deltaTime rng).1.enemies i).position.x)) := by
  rw [UpdateEnemies_eq]
  refine foldl_updateEnemy_slot_rel sqrt deltaTime
    (fun e0 e1 => (e0.active = 0 → e1 = e0)
      ∧ (e0.active ≠ 0 → (e1.active = 0 ↔ 600 ≤ e1.position.x)))
    ?_ _ (List.nodup_finRange _) (game, rng) i (List.mem_finRange i)
  intro st k
  obtain ⟨hidle, hact⟩ := updateEnemy_slot sqrt deltaTime st k
  refine ⟨fun h0 => by rw [hidle h0], fun h0 => ?_⟩
  rcases hact h0 with ⟨e1, e2, _, _⟩ | ⟨e1, e2, _, _⟩
  · constructor
    · intro h
      rw [e1] at h
      exact absurd h h0
    · intro h
      exact absurd h (not_le.2 e2)
  · exact ⟨fun _ => e2, fun _ => e1⟩

/-- C4. For every state and every tick input (elapsed time, click, random
draws): `UpdateGame` never increases `castleHealth`; a tick that returns early
or runs between waves leaves it unchanged; in a tick that runs the wave branch,
`castleHealth` decreases by exactly `breachCount`, the number of units that
`UpdateEnemies` deactivates, `enemiesAlive` ends at its value after the click
resolution minus that same number, and `score` ends at its value after the
click resolution. A unit active on entry to `UpdateEnemies` is deactivated
there if and only if its position after moving satisfies
`position.x >= (GRID_COLS-1)*CELL_SIZE = 600`; an inactive slot is not touched. -/
theorem UpdateGame_castleHealth (sqrt : ℚ → ℚ) (game : GameState) (deltaTime : ℚ)
    (inp : Input) (rng : Rng) :
    (UpdateGame sqrt game deltaTime inp rng).1.castleHealth ≤ game.castleHealth
    ∧ (((game.castleHealth ≤ 0
          ∨ (game.wave ≥ 5 ∧ game.enemiesAlive = 0 ∧ game.waveInProgress = false))
        ∨ game.waveInProgress = false) →
        (UpdateGame sqrt game deltaTime inp rng).1.castleHealth = game.castleHealth)
    ∧ ((¬ (game.castleHealth ≤ 0
          ∨ (game.wave ≥ 5 ∧ game.enemiesAlive = 0 ∧ game.waveInProgress = false))
        ∧ game.waveInProgress = true) →
        (UpdateGame sqrt game deltaTime inp rng).1.castleHealth
            = game.castleHealth
              - (breachCount (enemiesEntry game deltaTime inp rng).1
                  (enemiesExit sqrt game deltaTime inp rng).1 : Nat)
        ∧ (UpdateGame sqrt game deltaTime inp rng).1.enemiesAlive
            = (HandleMouseClick game inp).enemiesAlive
              - (breachCount (enemiesEntry game deltaTime inp rng).1
                  (enemiesExit sqrt game deltaTime inp rng).1 : Nat)
        ∧ (UpdateGame sqrt game deltaTime inp rng).1.score = (HandleMouseClick game inp).score)
    ∧ (∀ i, ((enemiesEntry game deltaTime inp rng).1.enemies i).active ≠ 0 →
        (((enemiesExit sqrt game deltaTime inp rng).1.enemies i).active = 0
          ↔ 600 ≤ ((enemiesExit sqrt game deltaTime inp rng).1.enemies i).position.x))
    ∧ (∀ i, ((enemiesEntry game deltaTime inp rng).1.enemies i).active = 0 →
        (enemiesExit sqrt game deltaTime inp rng).1.enemies i
          = (enemiesEntry game deltaTime inp rng).1.enemies i) := by
  obtain ⟨_, _, _, _, c5, _, _⟩ := HandleMouseClick_scheduler game inp
  obtain ⟨_, _, s3, s4, s5, _, _⟩ := spawnStep_scheduler (HandleMouseClick game inp) deltaTime rng
  obtain ⟨k1, k2⟩ := UpdateEnemies_counters sqrt (enemiesEntry game deltaTime inp rng).1
    deltaTime (enemiesEntry game deltaTime inp rng).2
  obtain ⟨_, _, _, _, _, _, u7⟩ := UpdateEnemies_sameOutsideUnits sqrt
    (enemiesEntry game deltaTime inp rng).1 deltaTime (enemiesEntry game deltaTime inp rng).2
  have hedge := UpdateEnemies_goal_edge sqrt (enemiesEntry game deltaTime inp rng).1 deltaTime
    (enemiesEntry game deltaTime inp rng).2
  have hwave : (¬ (game.castleHealth ≤ 0
          ∨ (game.wave ≥ 5 ∧ game.enemiesAlive = 0 ∧ game.waveInProgress = false))
        ∧ game.waveInProgress = true) →
        (UpdateGame sqrt game deltaTime inp rng).1.castleHealth
            = game.castleHealth
              - (breachCount (enemiesEntry game deltaTime inp rng).1
                  (enemiesExit sqrt game deltaTime inp rng).1 : Nat)
        ∧ (UpdateGame sqrt game deltaTime inp rng).1.enemiesAlive
            = (HandleMouseClick game inp).enemiesAlive
              - (breachCount (enemiesEntry game deltaTime inp rng).1
                  (enemiesExit sqrt game deltaTime inp rng).1 : Nat)
        ∧ (UpdateGame sqrt game deltaTime inp rng).1.score
            = (HandleMouseClick game inp).score := by
    rintro ⟨hnt, hw⟩
    have hu := UpdateGame_wave sqrt game deltaTime inp rng hnt hw
    have e1 : (enemiesExit sqrt game deltaTime inp rng).1.castleHealth
        = game.castleHealth - (breachCount (enemiesEntry game deltaTime inp rng).1
            (enemiesExit sqrt game deltaTime inp rng).1 : Nat) := by
      rw [← c5, ← s3]; exact k1
    have e2 : (enemiesExit sqrt game deltaTime inp rng).1.enemiesAlive
        = (HandleMouseClick game inp).enemiesAlive
          - (breachCount (enemiesEntry game deltaTime inp rng).1
            (enemiesExit sqrt game deltaTime inp rng).1 : Nat) := by
      rw [← s4]; exact k2
    have e3 : (enemiesExit sqrt game deltaTime inp rng).1.score
        = (HandleMouseClick game inp).score := by
      rw [← s5]; exact u7
    have hu2 : UpdateGame sqrt game deltaTime inp rng =
        if (enemiesExit sqrt game deltaTime inp rng).1.enemiesAlive = 0
            ∧ (enemiesExit sqrt game deltaTime inp rng).1.enemiesInWave = 0 then
          ({ (enemiesExit sqrt game deltaTime inp rng).1 with
              waveInProgress := false, waveTimer := 3 },
            (enemiesExit sqrt game deltaTime inp rng).2)
        else enemiesExit sqrt game deltaTime inp rng := hu
    generalize enemiesExit sqrt game deltaTime inp rng = U at hu2 e1 e2 e3
    rw [hu2]
    split_ifs
    · exact ⟨e1, e2, e3⟩
    · exact ⟨e1, e2, e3⟩
  refine ⟨?_, ?_, hwave, fun i => (hedge i).2, fun i => (hedge i).1⟩
  · by_cases hnt : (game.castleHealth ≤ 0
        ∨ (game.wave ≥ 5 ∧ game.enemiesAlive = 0 ∧ game.waveInProgress = false))
    · rw [UpdateGame_of_terminal sqrt game deltaTime inp rng hnt]
    · cases hw : game.waveInProgress with
      | false =>
        rw [UpdateGame_idle sqrt game deltaTime inp rng hnt hw]
        split_ifs
        · exact le_of_eq c5
        · exact le_of_eq c5
      | true =>
        rw [(hwave ⟨hnt, hw⟩).1]
        have : (0 : Int) ≤ (breachCount (enemiesEntry game deltaTime inp rng).1
            (enemiesExit sqrt game deltaTime inp rng).1 : Nat) := Int.ofNat_nonneg _
        omega
  · rintro (hnt | hw)
    · rw [UpdateGame_of_terminal sqrt game deltaTime inp rng hnt]
    · by_cases hnt : (game.castleHealth ≤ 0
          ∨ (game.wave ≥ 5 ∧ game.enemiesAlive = 0 ∧ game.waveInProgress = false))
      · rw [UpdateGame_of_terminal sqrt game deltaTime inp rng hnt]
      · rw [UpdateGame_idle sqrt game deltaTime inp rng hnt hw]
        split_ifs
        · exact c5
        · exact c5

/-! ## C2: the unobstructed walk -/

theorem toInt_le_five (q : ℚ) (h : q < 6) : toInt q ≤ 5 := by
  unfold toInt
  split_ifs with h0
  · have : ⌊q⌋ < 6 := Int.floor_lt.2 (by exact_mod_cast h)
    omega
  · have : ⌈q⌉ ≤ 0 := Int.ceil_le.2 (by push_cast; linarith)
    omega

theorem IsCellWalkable_x_le (game : GameState) (hg : lastColumnCastle game.grid) (x y : Int)
    (h : IsCellWalkable game x y = true) : x ≤ 5 := by
  unfold IsCellWalkable at h
  split_ifs at h with hb
  have hb' : ¬ (x < 0 ∨ x ≥ 7 ∨ y < 0 ∨ y ≥ 5) := hb
  by_contra hx
  have hx6 : x = 6 := by omega
  subst hx6
  have hc := hg ⟨y.toNat, by omega⟩
  have hfin : (⟨(6 : Int).toNat, by decide⟩ : Fin GRID_COLS) = ⟨GRID_COLS - 1, by decide⟩ := rfl
  rw [hfin, hc] at h
  simp at h

theorem FindNextPathCell_x_le (game : GameState) (hg : lastColumnCastle game.grid) (m : Int)
    (cy : ℚ) (hm : m ≤ 5) (rng : Rng) : (FindNextPathCell game ⟨m, cy⟩ rng).1.x ≤ 5 := by
  have hm' : (m : ℚ) ≤ 5 := by exact_mod_cast hm
  have hstep : ∀ y, IsCellWalkable game (toInt ((m : ℚ) + 1)) y = true → (m : ℚ) + 1 ≤ 5 := by
    intro y hy
    rw [toInt_intCast_add_one] at hy
    have := IsCellWalkable_x_le game hg _ _ hy
    exact_mod_cast this
  unfold FindNextPathCell
  dsimp only
  split_ifs with h1 h2 h3 h4 h5 h6 h7
  · exact hstep _ h1
  · exact hm'
  · exact hm'
  · exact hm'
  · exact hm'
  · exact hstep _ h6
  · exact hstep _ h7
  · exact hm'

theorem retarget_x_le (sqrt : ℚ → ℚ) (game : GameState) (hg : lastColumnCastle game.grid)
    (e : Enemy) (rng : Rng) (hp : e.position.x < 600) (ht : e.targetCell.x ≤ 5) :
    (retarget sqrt game e rng).1.x ≤ 5 := by
  unfold retarget
  split_ifs
  · unfold GetGridPosition
    apply FindNextPathCell_x_le game hg
    apply toInt_le_five
    norm_num [CELL_SIZE]
    linarith
  · exact ht

theorem moveToward_x_le (sqrt : ℚ → ℚ) (hsqrt : ∀ a b : ℚ, |a| ≤ sqrt (a * a + b * b))
    (e : Enemy) (targetCell : Vector2) (deltaTime : ℚ) (h0 : 0 ≤ deltaTime)
    (hs : e.speed = 60) (hp : e.position.x ≤ 550 + 60 * deltaTime) (ht : targetCell.x ≤ 5) :
    (moveToward sqrt e targetCell deltaTime).x ≤ 550 + 60 * deltaTime := by
  unfold moveToward cellCenter
  simp only [hs]
  norm_num [CELL_SIZE]
  have habs := hsqrt (targetCell.x * 100 + 50 - e.position.x)
    (targetCell.y * 100 + 50 - e.position.y)
  generalize sqrt ((targetCell.x * 100 + 50 - e.position.x)
      * (targetCell.x * 100 + 50 - e.position.x)
    + (targetCell.y * 100 + 50 - e.position.y)
      * (targetCell.y * 100 + 50 - e.position.y)) = L at habs ⊢
  split_ifs with hL
  · dsimp only
    by_cases hdx : targetCell.x * 100 + 50 - e.position.x ≤ 0
    · have hu : (targetCell.x * 100 + 50 - e.position.x) / L ≤ 0 :=
        div_nonpos_of_nonpos_of_nonneg hdx hL.le
      have : (targetCell.x * 100 + 50 - e.position.x) / L * 60 * deltaTime ≤ 0 := by
        have h60 : (0 : ℚ) ≤ 60 * deltaTime := by positivity
        have := mul_nonpos_of_nonpos_of_nonneg hu h60
        linarith
      linarith
    · push_neg at hdx
      have hle : targetCell.x * 100 + 50 - e.position.x ≤ L :=
        le_trans (le_abs_self _) habs
      have hu : (targetCell.x * 100 + 50 - e.position.x) / L ≤ 1 :=
        (div_le_one hL).2 hle
      have : (targetCell.x * 100 + 50 - e.position.x) / L * 60 * deltaTime
          ≤ 60 * deltaTime := by
        have h60 : (0 : ℚ) ≤ 60 * deltaTime := by positivity
        have := mul_le_mul_of_nonneg_right hu h60
        linarith
      linarith
  · dsimp only
    have hz : |targetCell.x * 100 + 50 - e.position.x| ≤ 0 := le_trans habs (not_lt.1 hL)
    have hz' : targetCell.x * 100 + 50 - e.position.x = 0 := abs_nonpos_iff.1 hz
    rw [hz']
    linarith

theorem updateEnemy_marching (sqrt : ℚ → ℚ) (hsqrt : ∀ a b : ℚ, |a| ≤ sqrt (a * a + b * b))
    (grid : Fin GRID_ROWS → Fin GRID_COLS → CellType) (hg : lastColumnCastle grid)
    (deltaTime : ℚ) (h0 : 0 ≤ deltaTime) (h1 : deltaTime ≤ 1 / 2) (st : GameState × Rng)
    (i : Fin MAX_ENEMIES) (hst : marching grid deltaTime st.1) :
    marching grid deltaTime (updateEnemy sqrt deltaTime st i).1 := by
  obtain ⟨m1, m2, m3, m4, m5, m6, m7, m8, m9⟩ := hst
  by_cases hact : (st.1.enemies i).active = 0
  · rw [(updateEnemy_slot sqrt deltaTime st i).1 hact]
    exact ⟨m1, m2, m3, m4, m5, m6, m7, m8, m9⟩
  · obtain ⟨a1, a2, a3, a4⟩ := m9 i hact
    have hg' : lastColumnCastle st.1.grid := by rw [m1]; exact hg
    have hp : (st.1.enemies i).position.x < 600 := by linarith
    have ht := retarget_x_le sqrt st.1 hg' (st.1.enemies i) st.2 hp a4
    have hmove := moveToward_x_le sqrt hsqrt
      { st.1.enemies i with targetCell := (retarget sqrt st.1 (st.1.enemies i) st.2).1 }
      (retarget sqrt st.1 (st.1.enemies i) st.2).1 deltaTime h0 a2 a3 ht
    have hnb : ¬ ((((GRID_COLS : Int) - 1) * CELL_SIZE : Int) : ℚ)
        ≤ (moveToward sqrt
            { st.1.enemies i with targetCell := (retarget sqrt st.1 (st.1.enemies i) st.2).1 }
            (retarget sqrt st.1 (st.1.enemies i) st.2).1 deltaTime).x := by
      norm_num [GRID_COLS, CELL_SIZE]
      linarith
    unfold updateEnemy
    dsimp only
    rw [if_neg hact, if_neg hnb]
    refine ⟨m1, m2, m3, m4, m5, m6, m7, ?_, ?_⟩
    · by_cases hi0 : (0 : Fin MAX_ENEMIES) = i
      · subst hi0
        simp only [Function.update_same]
        exact a1
      · simp only [Function.update_noteq hi0]
        exact m8
    · intro j hj
      by_cases hji : j = i
      · subst hji
        simp only [Function.update_same]
        exact ⟨a1, a2, hmove, ht⟩
      · simp only [Function.update_noteq hji] at hj ⊢
        exact m9 j hj

theorem foldl_updateEnemy_marching (sqrt : ℚ → ℚ)
    (hsqrt : ∀ a b : ℚ, |a| ≤ sqrt (a * a + b * b))
    (grid : Fin GRID_ROWS → Fin GRID_COLS → CellType) (hg : lastColumnCastle grid)
    (deltaTime : ℚ) (h0 : 0 ≤ deltaTime) (h1 : deltaTime ≤ 1 / 2)
    (l : List (Fin MAX_ENEMIES)) (st : GameState × Rng) (hst : marching grid deltaTime st.1) :
    marching grid deltaTime (l.foldl (updateEnemy sqrt deltaTime) st).1 := by
  induction l generalizing st with
  | nil => exact hst
  | cons a t ih =>
    rw [List.foldl_cons]
    exact ih _ (updateEnemy_marching sqrt hsqrt grid hg deltaTime h0 h1 st a hst)

theorem UpdateGame_marching (sqrt : ℚ → ℚ) (hsqrt : ∀ a b : ℚ, |a| ≤ sqrt (a * a + b * b))
    (grid : Fin GRID_ROWS → Fin GRID_COLS → CellType) (hg : lastColumnCastle grid)
    (deltaTime : ℚ) (h0 : 0 ≤ deltaTime) (h1 : deltaTime ≤ 1 / 2) (st : GameState × Rng)
    (hst : marching grid deltaTime st.1) :
    marching grid deltaTime (UpdateGame sqrt st.1 deltaTime noClick st.2).1 := by
  have hst' := hst
  obtain ⟨m1, m2, m3, m4, m5, m6, m7, m8, m9⟩ := hst
  have hnt : ¬ (st.1.castleHealth ≤ 0
      ∨ (st.1.wave ≥ 5 ∧ st.1.enemiesAlive = 0 ∧ st.1.waveInProgress = false)) := by
    rw [m2, m3]
    simp
  have hclick : HandleMouseClick st.1 noClick = st.1 := HandleMouseClick_not_pressed _ _ rfl
  have hspawn : spawnStep st.1 deltaTime st.2
      = ({ st.1 with spawnTimer := st.1.spawnTimer - deltaTime }, st.2) := by
    unfold spawnStep
    have : ¬ (st.1.enemiesInWave > 0 ∧ st.1.spawnTimer ≤ 0) := by
      rw [m4]; simp
    simp only [if_neg this]
  have hentry : marching grid deltaTime
      ({ st.1 with spawnTimer := st.1.spawnTimer - deltaTime } : GameState) :=
    ⟨m1, m2, m3, m4, m5, m6, m7, m8, m9⟩
  have hloop : marching grid deltaTime
      (UpdateEnemies sqrt { st.1 with spawnTimer := st.1.spawnTimer - deltaTime } deltaTime
        st.2).1 := by
    rw [UpdateEnemies_eq]
    exact foldl_updateEnemy_marching sqrt hsqrt grid hg deltaTime h0 h1 _ _ hentry
  rw [UpdateGame_wave sqrt st.1 deltaTime noClick st.2 hnt m6, hclick, hspawn]
  have halive : ¬ ((UpdateEnemies sqrt { st.1 with spawnTimer := st.1.spawnTimer - deltaTime }
      deltaTime st.2).1.enemiesAlive = 0
      ∧ (UpdateEnemies sqrt { st.1 with spawnTimer := st.1.spawnTimer - deltaTime }
      deltaTime st.2).1.enemiesInWave = 0) := by
    rw [hloop.2.2.2.2.1]
    simp
  rw [if_neg halive]
  exact hloop

theorem runFrames_marching (sqrt : ℚ → ℚ) (hsqrt : ∀ a b : ℚ, |a| ≤ sqrt (a * a + b * b))
    (grid : Fin GRID_ROWS → Fin GRID_COLS → CellType) (hg : lastColumnCastle grid)
    (deltaTime : ℚ) (h0 : 0 ≤ deltaTime) (h1 : deltaTime ≤ 1 / 2) (n : Nat)
    (st : GameState × Rng) (hst : marching grid deltaTime st.1) :
    marching grid deltaTime
      (runFrames sqrt (List.replicate n (deltaTime, noClick)) st).1 := by
  induction n generalizing st with
  | zero => exact hst
  | succ k ih =>
    rw [List.replicate_succ]
    simp only [runFrames]
    exact ih _ (UpdateGame_marching sqrt hsqrt grid hg deltaTime h0 h1 st hst)

theorem SpawnEnemy_scenarioStart (grid : Fin GRID_ROWS → Fin GRID_COLS → CellType)
    (rng : Rng) :
    SpawnEnemy (scenarioStart grid) rng =
      ({ scenarioStart grid with
          enemies := Function.update (scenarioStart grid).enemies 0
            (spawnedEnemy 1 (GetRandomValue 0 ((GRID_ROWS : Int) - 1) rng).1)
          enemiesInWave := 0 },
        (GetRandomValue 0 ((GRID_ROWS : Int) - 1) rng).2) := by
  have hf : Fin.find (fun i => ((scenarioStart grid).enemies i).active = 0) = some 0 :=
    Fin.find_eq_some_iff.2 ⟨rfl, fun j _ => Fin.zero_le j⟩
  simp only [SpawnEnemy, hf]
  rfl

theorem SpawnEnemy_scenarioStart_marching (grid : Fin GRID_ROWS → Fin GRID_COLS → CellType)
    (rng : Rng) (deltaTime : ℚ) (h0 : 0 ≤ deltaTime) :
    marching grid deltaTime (SpawnEnemy (scenarioStart grid) rng).1 := by
  rw [SpawnEnemy_scenarioStart, spawnedEnemy_eq _ _ (GetRandomValue_row rng).1]
  refine ⟨rfl, rfl, rfl, rfl, rfl, rfl, rfl, ?_, ?_⟩
  · simp
  · intro j hj
    by_cases hj0 : j = 0
    · subst hj0
      simp only [Function.update_same]
      refine ⟨by simp, by norm_num, ?_, by norm_num⟩
      linarith
    · simp only [Function.update_noteq hj0] at hj
      exact absurd rfl hj

theorem upperRoot_ge_abs (a b : ℚ) : |a| ≤ upperRoot (a * a + b * b) := by
  unfold upperRoot
  have h1 : 0 ≤ (|a| - 1) ^ 2 := sq_nonneg _
  have h2 : |a| ^ 2 = a * a := by rw [sq_abs]; ring
  have h3 : 0 ≤ b * b := mul_self_nonneg b
  nlinarith

theorem castleGrid_lastColumnCastle : lastColumnCastle castleGrid := by
  intro y
  simp [castleGrid]

/-- C2 (the code at the scenario). Let `sqrt` be any function with
`|a| <= sqrt (a*a + b*b)` (as the real square root has), `grid` any session
grid (last column all `CASTLE`), and let a single unit of wave 1 be spawned by
`SpawnEnemy` in the row the generator draws. Then after any number `n` of
`UpdateGame` ticks with a fixed frame delta `0 <= deltaTime <= 1/2` and no
clicks, the unit is still active with `position.x < 600`, and `castleHealth`,
`enemiesAlive` and `score` still have their initial values 10, 1 and 0: the
goal-edge check never fires. -/
theorem unobstructed_unit_never_breaches (sqrt : ℚ → ℚ)
    (hsqrt : ∀ a b : ℚ, |a| ≤ sqrt (a * a + b * b))
    (grid : Fin GRID_ROWS → Fin GRID_COLS → CellType) (hg : lastColumnCastle grid)
    (rng : Rng) (deltaTime : ℚ) (h0 : 0 ≤ deltaTime) (h1 : deltaTime ≤ 1 / 2) (n : Nat) :
    ((runFrames sqrt (List.replicate n (deltaTime, noClick))
        (SpawnEnemy (scenarioStart grid) rng)).1.enemies 0).active = 1
    ∧ ((runFrames sqrt (List.replicate n (deltaTime, noClick))
        (SpawnEnemy (scenarioStart grid) rng)).1.enemies 0).position.x < 600
    ∧ (runFrames sqrt (List.replicate n (deltaTime, noClick))
        (SpawnEnemy (scenarioStart grid) rng)).1.castleHealth
          = (scenarioStart grid).castleHealth
    ∧ (runFrames sqrt (List.replicate n (deltaTime, noClick))
        (SpawnEnemy (scenarioStart grid) rng)).1.enemiesAlive
          = (scenarioStart grid).enemiesAlive
    ∧ (runFrames sqrt (List.replicate n (deltaTime, noClick))
        (SpawnEnemy (scenarioStart grid) rng)).1.score = (scenarioStart grid).score := by
  obtain ⟨_, m2, _, _, m5, _, m7, m8, m9⟩ :=
    runFrames_marching sqrt hsqrt grid hg deltaTime h0 h1 n
      (SpawnEnemy (scenarioStart grid) rng)
      (SpawnEnemy_scenarioStart_marching grid rng deltaTime h0)
  refine ⟨m8, ?_, m2, m5, m7⟩
  have hb := (m9 0 (by rw [m8]; decide)).2.2.1
  linarith

/-- C2 at the obstacle-free session grid, 60 frames per second, for ten
minutes of play (36000 ticks), with `upperRoot` for the square root. -/
theorem unobstructed_unit_never_breaches_witness :
    (∀ a b : ℚ, |a| ≤ upperRoot (a * a + b * b))
    ∧ lastColumnCastle castleGrid
    ∧ (0 : ℚ) ≤ 1 / 60 ∧ (1 / 60 : ℚ) ≤ 1 / 2
    ∧ ((runFrames upperRoot (List.replicate 36000 (1 / 60, noClick))
        (SpawnEnemy (scenarioStart castleGrid) zeroRng)).1.enemies 0).active = 1
    ∧ (runFrames upperRoot (List.replicate 36000 (1 / 60, noClick))
        (SpawnEnemy (scenarioStart castleGrid) zeroRng)).1.castleHealth = 10 :=
  ⟨upperRoot_ge_abs, castleGrid_lastColumnCastle, by norm_num, by norm_num,
    (unobstructed_unit_never_breaches upperRoot upperRoot_ge_abs castleGrid
      castleGrid_lastColumnCastle zeroRng (1 / 60) (by norm_num) (by norm_num) 36000).1,
    (unobstructed_unit_never_breaches upperRoot upperRoot_ge_abs castleGrid
      castleGrid_lastColumnCastle zeroRng (1 / 60) (by norm_num) (by norm_num) 36000).2.2.1⟩

end DefendTheSpire

namespace DefendTheSpire

/-! ## C12: the grid after `InitializeGame` -/

theorem drawCell_column (rng : Rng) : (drawCell rng).1.2.val ≤ 4 := by
  have h : (GetRandomValue 0 ((GRID_COLS : Int) - 3) rng).1 = (rng 0 : Int) % 5 := by
    simp [GetRandomValue]
  show (GetRandomValue 0 ((GRID_COLS : Int) - 3) rng).1.toNat ≤ 4
  omega

theorem drawEmptyCell_some (grid : Fin GRID_ROWS → Fin GRID_COLS → CellType) (fuel : Nat)
    (rng : Rng) (c : (Fin GRID_ROWS × Fin GRID_COLS) × Rng)
    (h : drawEmptyCell grid fuel rng = some c) :
    grid c.1.1 c.1.2 = CellType.EMPTY ∧ c.1.2.val ≤ 4 := by
  induction fuel generalizing rng with
  | zero => simp [drawEmptyCell] at h
  | succ n ih =>
    simp only [drawEmptyCell] at h
    split_ifs at h with hc
    · exact ih _ h
    · rw [Option.some.injEq] at h
      subst h
      exact ⟨not_not.1 hc, drawCell_column rng⟩

theorem obstacleCount_setObstacle (grid : Fin GRID_ROWS → Fin GRID_COLS → CellType)
    (cell : Fin GRID_ROWS × Fin GRID_COLS) (h : grid cell.1 cell.2 ≠ CellType.OBSTACLE) :
    obstacleCount (setObstacle grid cell) = obstacleCount grid + 1 := by
  unfold obstacleCount
  rw [← Finset.add_sum_erase Finset.univ _ (Finset.mem_univ cell),
    ← Finset.add_sum_erase Finset.univ
      (fun c : Fin GRID_ROWS × Fin GRID_COLS =>
        if grid c.1 c.2 = CellType.OBSTACLE then 1 else 0) (Finset.mem_univ cell)]
  have hrest : ∀ c ∈ Finset.univ.erase cell,
      (if setObstacle grid cell c.1 c.2 = CellType.OBSTACLE then 1 else 0)
        = (if grid c.1 c.2 = CellType.OBSTACLE then 1 else 0) := by
    intro c hc
    have hne : c ≠ cell := Finset.ne_of_mem_erase hc
    have : ¬ (c.1 = cell.1 ∧ c.2 = cell.2) := fun h => hne (Prod.ext h.1 h.2)
    simp only [setObstacle, if_neg this]
  rw [Finset.sum_congr rfl hrest]
  simp [setObstacle, h]
  omega

theorem gridShape_setObstacle (k : Nat) (grid : Fin GRID_ROWS → Fin GRID_COLS → CellType)
    (cell : Fin GRID_ROWS × Fin GRID_COLS) (hg : gridShape k grid)
    (he : grid cell.1 cell.2 = CellType.EMPTY) (hc : cell.2.val ≤ 4) :
    gridShape (k + 1) (setObstacle grid cell) := by
  obtain ⟨g1, g2, g3, g4⟩ := hg
  refine ⟨?_, ?_, ?_, ?_⟩
  · intro y x
    unfold setObstacle
    split_ifs with h
    · constructor
      · intro h'; cases h'
      · intro hx
        rw [h.2] at hx
        simp only [GRID_COLS] at hx
        omega
    · exact g1 y x
  · intro y x
    unfold setObstacle
    split_ifs with h
    · intro _
      rw [h.2]
      exact hc
    · exact g2 y x
  · intro y x
    unfold setObstacle
    split_ifs with h
    · simp
    · exact g3 y x
  · rw [obstacleCount_setObstacle grid cell (by rw [he]; simp), g4]

theorem gridShape_placeObstacles (fuel count : Nat) (k : Nat)
    (grid : Fin GRID_ROWS → Fin GRID_COLS → CellType) (rng : Rng)
    (r : (Fin GRID_ROWS → Fin GRID_COLS → CellType) × Rng)
    (h : placeObstacles fuel count grid rng = some r) (hg : gridShape k grid) :
    gridShape (k + count) r.1 := by
  induction count generalizing grid rng k with
  | zero =>
    simp only [placeObstacles, Option.some.injEq] at h
    subst h
    exact hg
  | succ n ih =>
    simp only [placeObstacles] at h
    cases hd : drawEmptyCell grid fuel rng with
    | none => rw [hd] at h; simp at h
    | some c =>
      rw [hd] at h
      obtain ⟨he, hc⟩ := drawEmptyCell_some grid fuel rng c hd
      have := ih (k + 1) (setObstacle grid c.1) c.2 h (gridShape_setObstacle k grid c.1 hg he hc)
      rw [show k + (n + 1) = k + 1 + n by omega]
      exact this

theorem gridShape_castleGrid : gridShape 0 castleGrid := by
  refine ⟨?_, ?_, ?_, ?_⟩
  · intro y x
    by_cases h : x.val = 6 <;> simp [castleGrid, h]
  · intro y x
    simp only [castleGrid]
    split_ifs <;> simp
  · intro y x
    simp only [castleGrid]
    split_ifs <;> simp
  · unfold obstacleCount
    apply Finset.sum_eq_zero
    intro c _
    simp only [castleGrid]
    split_ifs <;> simp_all

theorem InitializeGame_some (fuel : Nat) (game : GameState) (rng : Rng)
    (r : GameState × Rng) (h : InitializeGame fuel game rng = some r) :
    ∃ p, placeObstacles fuel OBSTACLE_COUNT castleGrid rng = some p
      ∧ r = ({ grid := p.1
               castleHealth := 10
               enemies := fun i => { game.enemies i with active := 0 }
               wave := 0
               enemiesInWave := 0
               enemiesAlive := 0
               spawnTimer := 0
               waveTimer := 3
               waveInProgress := false
               score := 0 }, p.2) := by
  unfold InitializeGame at h
  cases hp : placeObstacles fuel OBSTACLE_COUNT castleGrid rng with
  | none => rw [hp] at h; simp at h
  | some p =>
    rw [hp] at h
    simp only [Option.some.injEq] at h
    exact ⟨p, rfl, h.symm⟩

/-- C12. For every sequence of random draws on which `InitializeGame`
terminates (returns a state within some number `fuel` of loop iterations), the
resulting grid has `CASTLE` in a cell exactly when the cell is in column
`GRID_COLS-1`, has exactly `OBSTACLE_COUNT` (5) `OBSTACLE` cells, every
obstacle lies in columns `0..GRID_COLS-3`, and every remaining cell is `EMPTY`. -/
theorem InitializeGame_grid (fuel : Nat) (game : GameState) (rng : Rng)
    (r : GameState × Rng) (h : InitializeGame fuel game rng = some r) :
    (∀ y x, r.1.grid y x = CellType.CASTLE ↔ x.val = GRID_COLS - 1)
    ∧ obstacleCount r.1.grid = OBSTACLE_COUNT
    ∧ (∀ y x, r.1.grid y x = CellType.OBSTACLE → x.val ≤ GRID_COLS - 3)
    ∧ (∀ y x, r.1.grid y x ≠ CellType.CASTLE → r.1.grid y x ≠ CellType.OBSTACLE →
        r.1.grid y x = CellType.EMPTY) := by
  obtain ⟨p, hp, hr⟩ := InitializeGame_some fuel game rng r h
  obtain ⟨g1, g2, g3, g4⟩ := gridShape_placeObstacles fuel OBSTACLE_COUNT 0 castleGrid rng p hp
    gridShape_castleGrid
  subst hr
  refine ⟨g1, by simpa using g4, g2, ?_⟩
  intro y x
  have h3 := g3 y x
  show p.1 y x ≠ CellType.CASTLE → p.1 y x ≠ CellType.OBSTACLE → p.1 y x = CellType.EMPTY
  generalize p.1 y x = c at h3 ⊢
  cases c <;> simp at h3 ⊢

theorem InitializeGame_countingRng :
    (InitializeGame 1 startState countingRng).isSome = true := by decide


/-- C12 at `countingRng`, whose first ten draws give five different cells. -/
theorem InitializeGame_grid_witness :
    ∃ r, InitializeGame 1 startState countingRng = some r
      ∧ (∀ y x, r.1.grid y x = CellType.CASTLE ↔ x.val = GRID_COLS - 1)
      ∧ obstacleCount r.1.grid = OBSTACLE_COUNT
      ∧ (∀ y x, r.1.grid y x = CellType.OBSTACLE → x.val ≤ GRID_COLS - 3) := by
  obtain ⟨r, hr⟩ := Option.isSome_iff_exists.1 InitializeGame_countingRng
  exact ⟨r, hr, (InitializeGame_grid 1 startState countingRng r hr).1,
    (InitializeGame_grid 1 startState countingRng r hr).2.1,
    (InitializeGame_grid 1 startState countingRng r hr).2.2.1⟩

/-! ## C11: `IsCellWalkable` outside the grid -/

/-- C11. For every grid and every integer coordinate `(x, y)` with `x < 0`,
`x >= GRID_COLS`, `y < 0` or `y >= GRID_ROWS`, `IsCellWalkable` returns false,
whatever the grid holds: the result is the same for every other state, and the
lookup is total (grid cells are indexed only by in-range indices). -/
theorem IsCellWalkable_out_of_bounds (game : GameState) (x y : Int)
    (h : x < 0 ∨ x ≥ GRID_COLS ∨ y < 0 ∨ y ≥ GRID_ROWS) :
    IsCellWalkable game x y = false
    ∧ ∀ other : GameState, IsCellWalkable other x y = IsCellWalkable game x y := by
  have hf : ∀ g : GameState, IsCellWalkable g x y = false := by
    intro g
    unfold IsCellWalkable
    rw [dif_pos h]
  exact ⟨hf game, fun other => by rw [hf other, hf game]⟩

/-- C11 at the column just right of the grid. -/
theorem IsCellWalkable_out_of_bounds_witness :
    ((7 : Int) < 0 ∨ (7 : Int) ≥ GRID_COLS ∨ (0 : Int) < 0 ∨ (0 : Int) ≥ GRID_ROWS)
    ∧ IsCellWalkable startState 7 0 = false :=
  ⟨by decide, (IsCellWalkable_out_of_bounds startState 7 0 (by decide)).1⟩

/-! ## C13: the rejection loop has no retry bound -/

theorem drawsAfter_zero (rng : Rng) : drawsAfter 0 rng = rng := rfl

theorem drawCell_rng (rng : Rng) : (drawCell rng).2 = drawsAfter 1 rng := rfl

theorem drawsAfter_succ (k : Nat) (rng : Rng) :
    drawsAfter k (drawsAfter 1 rng) = drawsAfter (k + 1) rng := by
  funext n
  simp only [drawsAfter]
  congr 1

/-- The rejection loop returns a cell exactly when one of its first `fuel`
draws is `EMPTY`; the cell returned is the first such draw. -/
theorem drawEmptyCell_eq_some_iff (grid : Fin GRID_ROWS → Fin GRID_COLS → CellType)
    (fuel : Nat) (rng : Rng) (c : (Fin GRID_ROWS × Fin GRID_COLS) × Rng) :
    drawEmptyCell grid fuel rng = some c ↔
      ∃ k, k < fuel
        ∧ grid (drawCell (drawsAfter k rng)).1.1 (drawCell (drawsAfter k rng)).1.2
            = CellType.EMPTY
        ∧ (∀ j, j < k →
            grid (drawCell (drawsAfter j rng)).1.1 (drawCell (drawsAfter j rng)).1.2
              ≠ CellType.EMPTY)
        ∧ c = drawCell (drawsAfter k rng) := by
  induction fuel generalizing rng with
  | zero =>
    simp [drawEmptyCell]
  | succ n ih =>
    simp only [drawEmptyCell]
    by_cases h0 : grid (drawCell rng).1.1 (drawCell rng).1.2 = CellType.EMPTY
    · rw [if_neg (not_not.2 h0)]
      constructor
      · intro h
        rw [Option.some.injEq] at h
        exact ⟨0, Nat.succ_pos n, h0, fun j hj => absurd hj (Nat.not_lt_zero j), h.symm⟩
      · rintro ⟨k, _, _, hmin, hc⟩
        cases k with
        | zero => rw [hc]; rfl
        | succ k' => exact absurd h0 (hmin 0 (Nat.succ_pos k'))
    · rw [if_pos h0, ih, drawCell_rng]
      constructor
      · rintro ⟨k, hk, he, hmin, hc⟩
        rw [drawsAfter_succ] at he hc
        refine ⟨k + 1, Nat.succ_lt_succ hk, he, ?_, hc⟩
        intro j hj
        cases j with
        | zero => exact h0
        | succ j' =>
          have := hmin j' (Nat.lt_of_succ_lt_succ hj)
          rw [drawsAfter_succ] at this
          exact this
      · rintro ⟨k, hk, he, hmin, hc⟩
        cases k with
        | zero => exact absurd he h0
        | succ k' =>
          refine ⟨k', Nat.lt_of_succ_lt_succ hk, ?_, ?_, ?_⟩
          · rw [drawsAfter_succ]; exact he
          · intro j hj
            rw [drawsAfter_succ]
            exact hmin (j + 1) (Nat.succ_lt_succ hj)
          · rw [drawsAfter_succ]; exact hc

/-- Counterexample to C13 as stated: on the draw sequence that is constantly
zero the first obstacle is placed on cell `(0, 0)` and the rejection loop of
the second obstacle draws that occupied cell forever; for no bound `fuel` on
the number of iterations does the loop, or `InitializeGame`, return. -/
theorem InitializeGame_zeroRng_never_returns :
    (∀ fuel : Nat, drawEmptyCell (setObstacle castleGrid (0, 0)) fuel zeroRng = none)
    ∧ (∀ fuel : Nat, InitializeGame fuel startState zeroRng = none) := by
  have hloop : ∀ fuel : Nat,
      drawEmptyCell (setObstacle castleGrid (0, 0)) fuel zeroRng = none := by
    intro fuel
    induction fuel with
    | zero => rfl
    | succ n ih =>
      simp only [drawEmptyCell]
      have hc : drawCell zeroRng = ((0, 0), zeroRng) := rfl
      rw [hc]
      have : setObstacle castleGrid (0, 0) 0 0 ≠ CellType.EMPTY := by decide
      rw [if_pos this]
      exact ih
  refine ⟨hloop, ?_⟩
  intro fuel
  cases fuel with
  | zero => rfl
  | succ n =>
    have h1 : drawEmptyCell castleGrid (n + 1) zeroRng = some ((0, 0), zeroRng) := by
      simp only [drawEmptyCell]
      have hc : drawCell zeroRng = ((0, 0), zeroRng) := rfl
      rw [hc]
      have : ¬ castleGrid 0 0 ≠ CellType.EMPTY := by decide
      rw [if_neg this]
    have h2 : placeObstacles (n + 1) OBSTACLE_COUNT castleGrid zeroRng = none := by
      show placeObstacles (n + 1) (4 + 1) castleGrid zeroRng = none
      simp only [placeObstacles, h1, hloop]
    simp only [InitializeGame, h2]

/-- C13 (amended). The rejection loop of `InitializeGame` has no retry bound and
reports no error: for every grid and every sequence of draws it stops within
`fuel` iterations if and only if one of its first `fuel` drawn cells is
`EMPTY`; when it stops, the obstacle is placed on the first drawn cell that is
`EMPTY`; and on a sequence that never draws an `EMPTY` cell it does not stop
within any number of iterations. -/
theorem drawEmptyCell_stops_iff (grid : Fin GRID_ROWS → Fin GRID_COLS → CellType)
    (fuel : Nat) (rng : Rng) :
    ((drawEmptyCell grid fuel rng).isSome = true ↔
      ∃ k, k < fuel
        ∧ grid (drawCell (drawsAfter k rng)).1.1 (drawCell (drawsAfter k rng)).1.2
            = CellType.EMPTY)
    ∧ (∀ c, drawEmptyCell grid fuel rng = some c →
        grid c.1.1 c.1.2 = CellType.EMPTY
        ∧ ∃ k, k < fuel ∧ c = drawCell (drawsAfter k rng)
          ∧ ∀ j, j < k →
            grid (drawCell (drawsAfter j rng)).1.1 (drawCell (drawsAfter j rng)).1.2
              ≠ CellType.EMPTY)
    ∧ ((∀ k, grid (drawCell (drawsAfter k rng)).1.1 (drawCell (drawsAfter k rng)).1.2
          ≠ CellType.EMPTY) →
        ∀ n : Nat, drawEmptyCell grid n rng = none) := by
  refine ⟨?_, ?_, ?_⟩
  · constructor
    · intro h
      obtain ⟨c, hc⟩ := Option.isSome_iff_exists.1 h
      obtain ⟨k, hk, he, _, _⟩ := (drawEmptyCell_eq_some_iff grid fuel rng c).1 hc
      exact ⟨k, hk, he⟩
    · rintro ⟨k, hk, he⟩
      have hex : ∃ k, k < fuel
          ∧ grid (drawCell (drawsAfter k rng)).1.1 (drawCell (drawsAfter k rng)).1.2
            = CellType.EMPTY := ⟨k, hk, he⟩
      classical
      have hm := Nat.find_spec hex
      have hmin : ∀ j, j < Nat.find hex →
          grid (drawCell (drawsAfter j rng)).1.1 (drawCell (drawsAfter j rng)).1.2
            ≠ CellType.EMPTY := by
        intro j hj hje
        exact Nat.find_min hex hj ⟨lt_trans hj hm.1, hje⟩
      have := (drawEmptyCell_eq_some_iff grid fuel rng (drawCell (drawsAfter (Nat.find hex) rng))).2
        ⟨Nat.find hex, hm.1, hm.2, hmin, rfl⟩
      rw [this]
      rfl
  · intro c hc
    obtain ⟨k, hk, he, hmin, hck⟩ := (drawEmptyCell_eq_some_iff grid fuel rng c).1 hc
    exact ⟨by rw [hck]; exact he, k, hk, hck, hmin⟩
  · intro hall n
    cases hd : drawEmptyCell grid n rng with
    | none => rfl
    | some c =>
      obtain ⟨k, _, he, _, _⟩ := (drawEmptyCell_eq_some_iff grid n rng c).1 hd
      exact absurd he (hall k)

end DefendTheSpire

namespace DefendTheSpire

/-! ## C14, C17: what `FindNextPathCell` returns -/

/-- On an integer cell `(x, y)`, `FindNextPathCell` either finds none of the
five cells it examines walkable and returns `(x, y)`, or returns one of the
five that is walkable. -/
theorem FindNextPathCell_intCell (game : GameState) (x y : Int) (rng : Rng) :
    (IsCellWalkable game (x + 1) y = false ∧ IsCellWalkable game x (y - 1) = false
      ∧ IsCellWalkable game x (y + 1) = false ∧ IsCellWalkable game (x + 1) (y - 1) = false
      ∧ IsCellWalkable game (x + 1) (y + 1) = false
      ∧ (FindNextPathCell game ⟨x, y⟩ rng).1 = ⟨x, y⟩)
    ∨ ∃ a b : Int, (FindNextPathCell game ⟨x, y⟩ rng).1 = ⟨a, b⟩
        ∧ IsCellWalkable game a b = true
        ∧ ((a = x + 1 ∧ b = y) ∨ (a = x ∧ b = y - 1) ∨ (a = x ∧ b = y + 1)
          ∨ (a = x + 1 ∧ b = y - 1) ∨ (a = x + 1 ∧ b = y + 1)) := by
  simp only [FindNextPathCell, toInt_intCast, toInt_intCast_add_one, toInt_intCast_sub_one]
  by_cases h1 : IsCellWalkable game (x + 1) y = true
  · right
    refine ⟨x + 1, y, ?_, h1, Or.inl ⟨rfl, rfl⟩⟩
    simp [h1]
  · by_cases hu : IsCellWalkable game x (y - 1) = true
    · by_cases hd : IsCellWalkable game x (y + 1) = true
      · right
        rcases GetRandomValue_zero_one rng with h0 | h0
        · refine ⟨x, y - 1, ?_, hu, Or.inr (Or.inl ⟨rfl, rfl⟩)⟩
          simp [h1, hu, hd, h0]
        · refine ⟨x, y + 1, ?_, hd, Or.inr (Or.inr (Or.inl ⟨rfl, rfl⟩))⟩
          simp [h1, hu, hd, h0]
      · right
        refine ⟨x, y - 1, ?_, hu, Or.inr (Or.inl ⟨rfl, rfl⟩)⟩
        simp [h1, hu, hd]
    · by_cases hd : IsCellWalkable game x (y + 1) = true
      · right
        refine ⟨x, y + 1, ?_, hd, Or.inr (Or.inr (Or.inl ⟨rfl, rfl⟩))⟩
        simp [h1, hu, hd]
      · by_cases hdu : IsCellWalkable game (x + 1) (y - 1) = true
        · right
          refine ⟨x + 1, y - 1, ?_, hdu, Or.inr (Or.inr (Or.inr (Or.inl ⟨rfl, rfl⟩)))⟩
          simp [h1, hu, hd, hdu]
        · by_cases hdd : IsCellWalkable game (x + 1) (y + 1) = true
          · right
            refine ⟨x + 1, y + 1, ?_, hdd, Or.inr (Or.inr (Or.inr (Or.inr ⟨rfl, rfl⟩)))⟩
            simp [h1, hu, hd, hdu, hdd]
          · left
            simp only [Bool.not_eq_true] at h1 hu hd hdu hdd
            refine ⟨h1, hu, hd, hdu, hdd, ?_⟩
            simp [h1, hu, hd, hdu, hdd]

theorem IsCellWalkable_true_cell (game : GameState) (x y : Int)
    (h : IsCellWalkable game x y = true) :
    ∃ (yy : Fin GRID_ROWS) (xx : Fin GRID_COLS), ((xx.val : Nat) : Int) = x
      ∧ ((yy.val : Nat) : Int) = y
      ∧ game.grid yy xx ≠ CellType.OBSTACLE ∧ game.grid yy xx ≠ CellType.CASTLE := by
  unfold IsCellWalkable at h
  split_ifs at h with hb
  have hb' : ¬ (x < 0 ∨ x ≥ 7 ∨ y < 0 ∨ y ≥ 5) := hb
  refine ⟨⟨y.toNat, by omega⟩, ⟨x.toNat, by omega⟩, ?_, ?_, ?_⟩
  · show ((x.toNat : Nat) : Int) = x
    omega
  · show ((y.toNat : Nat) : Int) = y
    omega
  · simpa using h

theorem vector2_intCast_ne (a b x y : Int) (h : a ≠ x ∨ b ≠ y) :
    (⟨a, b⟩ : Vector2) ≠ ⟨x, y⟩ := by
  intro heq
  rw [Vector2.mk.injEq] at heq
  rcases h with h | h
  · exact h (by exact_mod_cast heq.1)
  · exact h (by exact_mod_cast heq.2)

/-- C14. Every value the program assigns to a unit's `targetCell` is a walkable
cell or the cell that contains the unit's position: `SpawnEnemy` assigns
`GetGridPosition` of the spawn position; for every grid and integer cell `c`,
`FindNextPathCell(c)` is `c` itself or a cell for which `IsCellWalkable` is
true, and so is the value assigned on retarget, `FindNextPathCell` of
`GetGridPosition(position)`; whenever the result differs from `c` it is an
in-bounds cell that is neither `OBSTACLE` nor `CASTLE`. -/
theorem targetCell_walkable_or_own_cell (game : GameState) :
    (∀ wave spawnY : Int,
      (spawnedEnemy wave spawnY).targetCell = GetGridPosition (spawnedEnemy wave spawnY).position)
    ∧ (∀ (x y : Int) (rng : Rng),
        (FindNextPathCell game ⟨x, y⟩ rng).1 = ⟨x, y⟩
        ∨ IsCellWalkable game (toInt (FindNextPathCell game ⟨x, y⟩ rng).1.x)
            (toInt (FindNextPathCell game ⟨x, y⟩ rng).1.y) = true)
    ∧ (∀ (position : Vector2) (rng : Rng),
        (FindNextPathCell game (GetGridPosition position) rng).1 = GetGridPosition position
        ∨ IsCellWalkable game
            (toInt (FindNextPathCell game (GetGridPosition position) rng).1.x)
            (toInt (FindNextPathCell game (GetGridPosition position) rng).1.y) = true)
    ∧ (∀ (x y : Int) (rng : Rng), (FindNextPathCell game ⟨x, y⟩ rng).1 ≠ ⟨x, y⟩ →
        ∃ (yy : Fin GRID_ROWS) (xx : Fin GRID_COLS),
          (FindNextPathCell game ⟨x, y⟩ rng).1 = ⟨((xx.val : Nat) : Int), ((yy.val : Nat) : Int)⟩
          ∧ game.grid yy xx ≠ CellType.OBSTACLE ∧ game.grid yy xx ≠ CellType.CASTLE) := by
  have hcell : ∀ (x y : Int) (rng : Rng),
      (FindNextPathCell game ⟨x, y⟩ rng).1 = ⟨x, y⟩
      ∨ IsCellWalkable game (toInt (FindNextPathCell game ⟨x, y⟩ rng).1.x)
          (toInt (FindNextPathCell game ⟨x, y⟩ rng).1.y) = true := by
    intro x y rng
    rcases FindNextPathCell_intCell game x y rng with ⟨_, _, _, _, _, h⟩ | ⟨a, b, h, hw, _⟩
    · exact Or.inl h
    · right
      rw [h]
      simp only [toInt_intCast]
      exact hw
  refine ⟨fun _ _ => rfl, hcell, fun p rng => hcell _ _ rng, ?_⟩
  intro x y rng hne
  rcases FindNextPathCell_intCell game x y rng with ⟨_, _, _, _, _, h⟩ | ⟨a, b, h, hw, _⟩
  · exact absurd h hne
  · obtain ⟨yy, xx, hx, hy, ho, hc⟩ := IsCellWalkable_true_cell game a b hw
    exact ⟨yy, xx, by rw [h, hx, hy], ho, hc⟩

/-- Counterexample to C17 as stated: on `pocketGrid` the in-bounds cell
`(1, 0)` has a walkable neighbour, the cell `(0, 0)` behind it, and
`FindNextPathCell` returns `(1, 0)` itself. -/
theorem FindNextPathCell_stalls_in_pocket :
    IsCellWalkable { startState with grid := pocketGrid } 0 0 = true
    ∧ (FindNextPathCell { startState with grid := pocketGrid }
        ⟨((1 : Int) : ℚ), ((0 : Int) : ℚ)⟩ zeroRng).1 = ⟨((1 : Int) : ℚ), ((0 : Int) : ℚ)⟩ := by
  refine ⟨by decide, ?_⟩
  rcases FindNextPathCell_intCell { startState with grid := pocketGrid } 1 0 zeroRng with
    ⟨_, _, _, _, _, h⟩ | ⟨a, b, _, hw, hab⟩
  · exact h
  · exfalso
    rcases hab with ⟨rfl, rfl⟩ | ⟨rfl, rfl⟩ | ⟨rfl, rfl⟩ | ⟨rfl, rfl⟩ | ⟨rfl, rfl⟩ <;>
      revert hw <;> decide

/-- C17 (amended). A unit never stalls while one of the five cells the policy
examines is walkable: for every grid and every integer cell `c = (x, y)`,
`FindNextPathCell(c)` returns a cell different from `c` if and only if at least
one of `(x+1, y)`, `(x, y-1)`, `(x, y+1)`, `(x+1, y-1)`, `(x+1, y+1)` is
walkable. The cells behind `c` (column `x-1`) are not examined. -/
theorem FindNextPathCell_moves_iff (game : GameState) (x y : Int) (rng : Rng) :
    (FindNextPathCell game ⟨x, y⟩ rng).1 ≠ ⟨x, y⟩ ↔
      (IsCellWalkable game (x + 1) y = true ∨ IsCellWalkable game x (y - 1) = true
        ∨ IsCellWalkable game x (y + 1) = true ∨ IsCellWalkable game (x + 1) (y - 1) = true
        ∨ IsCellWalkable game (x + 1) (y + 1) = true) := by
  rcases FindNextPathCell_intCell game x y rng with ⟨h1, h2, h3, h4, h5, h⟩ | ⟨a, b, h, hw, hab⟩
  · constructor
    · intro hne
      exact absurd h hne
    · intro hw
      rw [h1, h2, h3, h4, h5] at hw
      simp at hw
  · constructor
    · intro _
      rcases hab with ⟨rfl, rfl⟩ | ⟨rfl, rfl⟩ | ⟨rfl, rfl⟩ | ⟨rfl, rfl⟩ | ⟨rfl, rfl⟩
      · exact Or.inl hw
      · exact Or.inr (Or.inl hw)
      · exact Or.inr (Or.inr (Or.inl hw))
      · exact Or.inr (Or.inr (Or.inr (Or.inl hw)))
      · exact Or.inr (Or.inr (Or.inr (Or.inr hw)))
    · intro _
      rw [h]
      apply vector2_intCast_ne
      rcases hab with ⟨rfl, rfl⟩ | ⟨rfl, rfl⟩ | ⟨rfl, rfl⟩ | ⟨rfl, rfl⟩ | ⟨rfl, rfl⟩ <;> omega

/-! ## C18: a zero-length direction -/

theorem moveToward_at_center (sqrt : ℚ → ℚ) (h0 : sqrt 0 = 0) (e : Enemy)
    (targetCell : Vector2) (deltaTime : ℚ) (hc : e.position = cellCenter targetCell) :
    ¬ (Vector2Distance sqrt (cellCenter targetCell) e.position > 0)
    ∧ moveToward sqrt e targetCell deltaTime = e.position := by
  have hd : Vector2Distance sqrt (cellCenter targetCell) e.position = 0 := by
    unfold Vector2Distance
    rw [hc]
    simp [h0]
  refine ⟨by rw [hd]; exact lt_irrefl 0, ?_⟩
  unfold moveToward
  simp only [hc, sub_self, mul_zero, add_zero, h0, gt_iff_lt, lt_self_iff_false, if_false,
    zero_mul]

theorem IsCellWalkable_congr_grid (a b : GameState) (h : a.grid = b.grid) (x y : Int) :
    IsCellWalkable a x y = IsCellWalkable b x y := by
  unfold IsCellWalkable
  rw [h]

theorem FindNextPathCell_congr_grid (a b : GameState) (h : a.grid = b.grid) (c : Vector2)
    (rng : Rng) : FindNextPathCell a c rng = FindNextPathCell b c rng := by
  unfold FindNextPathCell
  simp only [IsCellWalkable_congr_grid a b h]

theorem retarget_congr_grid (sqrt : ℚ → ℚ) (a b : GameState) (h : a.grid = b.grid) (e : Enemy)
    (rng : Rng) : retarget sqrt a e rng = retarget sqrt b e rng := by
  unfold retarget
  simp only [IsCellWalkable_congr_grid a b h, FindNextPathCell_congr_grid a b h]

/-- One loop iteration at an active unit that stands on the centre of its
target cell after the retarget step: the position in the slot is unchanged. -/
theorem updateEnemy_at_center (sqrt : ℚ → ℚ) (h0 : sqrt 0 = 0) (deltaTime : ℚ)
    (st : GameState × Rng) (i : Fin MAX_ENEMIES)
    (hc : (st.1.enemies i).position
      = cellCenter (retarget sqrt st.1 (st.1.enemies i) st.2).1) :
    ((updateEnemy sqrt deltaTime st i).1.enemies i).position = (st.1.enemies i).position := by
  by_cases hact : (st.1.enemies i).active = 0
  · rw [(updateEnemy_slot sqrt deltaTime st i).1 hact]
  · have hm := (moveToward_at_center sqrt h0
      { st.1.enemies i with targetCell := (retarget sqrt st.1 (st.1.enemies i) st.2).1 }
      (retarget sqrt st.1 (st.1.enemies i) st.2).1 deltaTime hc).2
    unfold updateEnemy
    dsimp only
    rw [if_neg hact]
    split_ifs
    · simp only [Function.update_same]
      exact hm
    · simp only [Function.update_same]
      exact hm

/-- A relation between the old and the new content of a slot that holds for
every loop iteration on the grid `grid` holds for the whole loop. -/
theorem foldl_updateEnemy_slot_rel_grid (sqrt : ℚ → ℚ) (deltaTime : ℚ)
    (grid : Fin GRID_ROWS → Fin GRID_COLS → CellType) (Q : Enemy → Enemy → Prop)
    (hQ : ∀ (st : GameState × Rng) (i : Fin MAX_ENEMIES), st.1.grid = grid →
      Q (st.1.enemies i) ((updateEnemy sqrt deltaTime st i).1.enemies i))
    (l : List (Fin MAX_ENEMIES)) (hl : l.Nodup) (st : GameState × Rng) (hg : st.1.grid = grid)
    (i : Fin MAX_ENEMIES) (hi : i ∈ l) :
    Q (st.1.enemies i) ((l.foldl (updateEnemy sqrt deltaTime) st).1.enemies i) := by
  induction l generalizing st with
  | nil => exact absurd hi (List.not_mem_nil i)
  | cons a t ih =>
    rw [List.nodup_cons] at hl
    rw [List.foldl_cons]
    rcases List.mem_cons.1 hi with hia | hit
    · subst hia
      rw [foldl_updateEnemy_untouched sqrt deltaTime t _ i hl.1]
      exact hQ st i hg
    · have hne : i ≠ a := fun h => hl.1 (h ▸ hit)
      have hg' : (updateEnemy sqrt deltaTime st a).1.grid = grid :=
        (updateEnemy_sameOutsideUnits sqrt deltaTime st a).1.trans hg
      have h := ih hl.2 (updateEnemy sqrt deltaTime st a) hg' hit
      rw [updateEnemy_other sqrt deltaTime st a i hne] at h
      exact h

/-- C18. For every active unit whose position equals the centre of its target
cell after the retarget step (zero-length direction vector) and for every
elapsed time, with `sqrt 0 = 0`: the length of the direction is not positive,
so the guarded division of lines 181-184 is not performed, and the movement
step, the loop iteration of `UpdateEnemies` at that slot and `UpdateEnemies` as
a whole leave the unit's position exactly unchanged. -/
theorem UpdateEnemies_zero_direction (sqrt : ℚ → ℚ) (h0 : sqrt 0 = 0) (deltaTime : ℚ) :
    (∀ (e : Enemy) (targetCell : Vector2), e.position = cellCenter targetCell →
      ¬ (Vector2Distance sqrt (cellCenter targetCell) e.position > 0)
      ∧ moveToward sqrt e targetCell deltaTime = e.position)
    ∧ (∀ (st : GameState × Rng) (i : Fin MAX_ENEMIES), (st.1.enemies i).active ≠ 0 →
        (st.1.enemies i).position = cellCenter (retarget sqrt st.1 (st.1.enemies i) st.2).1 →
        ((updateEnemy sqrt deltaTime st i).1.enemies i).position = (st.1.enemies i).position)
    ∧ (∀ (game : GameState) (rng : Rng) (i : Fin MAX_ENEMIES), (game.enemies i).active ≠ 0 →
        (∀ r : Rng,
          (game.enemies i).position = cellCenter (retarget sqrt game (game.enemies i) r).1) →
        ((UpdateEnemies sqrt game deltaTime rng).1.enemies i).position
          = (game.enemies i).position) := by
  refine ⟨fun e t hc => moveToward_at_center sqrt h0 e t deltaTime hc,
    fun st i _ hc => updateEnemy_at_center sqrt h0 deltaTime st i hc, ?_⟩
  intro game rng i _ hc
  rw [UpdateEnemies_eq]
  refine foldl_updateEnemy_slot_rel_grid sqrt deltaTime game.grid
    (fun e0 e1 => (∀ r : Rng, e0.position = cellCenter (retarget sqrt game e0 r).1) →
      e1.position = e0.position)
    ?_ _ (List.nodup_finRange _) (game, rng) rfl i (List.mem_finRange i) hc
  intro st k hg hk
  apply updateEnemy_at_center sqrt h0 deltaTime st k
  rw [retarget_congr_grid sqrt st.1 game hg]
  exact hk st.2

/-- C18 with the identity for `sqrt` (which maps 0 to 0): a unit at the centre
`(50, 50)` of its target cell `(0, 0)` does not move. -/
theorem UpdateEnemies_zero_direction_witness :
    (id (0 : ℚ) = 0)
    ∧ moveToward id { idleEnemy with position := ⟨50, 50⟩, active := 1, speed := 60 }
        ⟨0, 0⟩ (1 / 60) = ⟨50, 50⟩ :=
  ⟨rfl, ((UpdateEnemies_zero_direction id rfl (1 / 60)).1
    { idleEnemy with position := ⟨50, 50⟩, active := 1, speed := 60 } ⟨0, 0⟩
    (by simp [cellCenter, CELL_SIZE])).2⟩

end DefendTheSpire

namespace DefendTheSpire

/-! ## The accounting invariant of the session -/

theorem activeCount_of_update (s t : GameState) (i : Fin MAX_ENEMIES)
    (h : ∀ j, j ≠ i → t.enemies j = s.enemies j) :
    activeCount t + (if (s.enemies i).active ≠ 0 then 1 else 0)
      = activeCount s + (if (t.enemies i).active ≠ 0 then 1 else 0) := by
  unfold activeCount
  rw [← Finset.add_sum_erase Finset.univ
      (fun j : Fin MAX_ENEMIES => if (t.enemies j).active ≠ 0 then 1 else 0)
      (Finset.mem_univ i),
    ← Finset.add_sum_erase Finset.univ
      (fun j : Fin MAX_ENEMIES => if (s.enemies j).active ≠ 0 then 1 else 0)
      (Finset.mem_univ i)]
  have hrest : ∑ j ∈ Finset.univ.erase i, (if (t.enemies j).active ≠ 0 then 1 else 0)
      = ∑ j ∈ Finset.univ.erase i, (if (s.enemies j).active ≠ 0 then 1 else 0) := by
    apply Finset.sum_congr rfl
    intro j hj
    rw [h j (Finset.ne_of_mem_erase hj)]
  rw [hrest]
  omega

theorem activeCount_of_enemies_eq (s t : GameState) (h : t.enemies = s.enemies) :
    activeCount t = activeCount s := by
  unfold activeCount
  rw [h]

theorem activeCount_pos (s : GameState) (i : Fin MAX_ENEMIES)
    (h : (s.enemies i).active ≠ 0) : 0 < activeCount s := by
  unfold activeCount
  rw [← Finset.add_sum_erase Finset.univ
      (fun j : Fin MAX_ENEMIES => if (s.enemies j).active ≠ 0 then 1 else 0)
      (Finset.mem_univ i)]
  simp only [h, ne_eq, not_false_eq_true, if_true]
  omega

theorem activeCount_of_all_active (s : GameState) (h : ∀ i, (s.enemies i).active ≠ 0) :
    activeCount s = MAX_ENEMIES := by
  unfold activeCount
  simp [h]

theorem SpawnEnemy_cases (game : GameState) (rng : Rng) :
    ((∀ i, (game.enemies i).active ≠ 0) ∧ SpawnEnemy game rng = (game, rng))
    ∨ ∃ i, (game.enemies i).active = 0
        ∧ SpawnEnemy game rng =
          ({ game with
              enemies := Function.update game.enemies i
                (spawnedEnemy game.wave (GetRandomValue 0 ((GRID_ROWS : Int) - 1) rng).1)
              enemiesInWave := game.enemiesInWave - 1 },
            (GetRandomValue 0 ((GRID_ROWS : Int) - 1) rng).2) := by
  cases hf : Fin.find (fun i => (game.enemies i).active = 0) with
  | none =>
    left
    have hall : ∀ i, (game.enemies i).active ≠ 0 := Fin.find_eq_none_iff.1 hf
    exact ⟨hall, SpawnEnemy_of_all_active game rng hall⟩
  | some i =>
    right
    refine ⟨i, Fin.find_spec _ hf, ?_⟩
    simp only [SpawnEnemy, hf]

theorem activeCount_of_deactivate (s t : GameState) (i : Fin MAX_ENEMIES)
    (h : ∀ j, j ≠ i → t.enemies j = s.enemies j) (hs : (s.enemies i).active ≠ 0)
    (ht : (t.enemies i).active = 0) : activeCount t + 1 = activeCount s := by
  have hupd := activeCount_of_update s t i h
  rw [if_pos hs, if_neg (not_not.2 ht)] at hupd
  omega

theorem activeCount_of_activate (s t : GameState) (i : Fin MAX_ENEMIES)
    (h : ∀ j, j ≠ i → t.enemies j = s.enemies j) (hs : (s.enemies i).active = 0)
    (ht : (t.enemies i).active ≠ 0) : activeCount t = activeCount s + 1 := by
  have hupd := activeCount_of_update s t i h
  rw [if_neg (not_not.2 hs), if_pos ht] at hupd
  omega

theorem activeCount_of_still_active (s t : GameState) (i : Fin MAX_ENEMIES)
    (h : ∀ j, j ≠ i → t.enemies j = s.enemies j) (hs : (s.enemies i).active ≠ 0)
    (ht : (t.enemies i).active ≠ 0) : activeCount t = activeCount s := by
  have hupd := activeCount_of_update s t i h
  rw [if_pos hs, if_pos ht] at hupd
  omega

theorem accounting_HandleMouseClick (game : GameState) (inp : Input)
    (h : accounting game) : accounting (HandleMouseClick game inp) := by
  rcases HandleMouseClick_cases game inp with hc | ⟨i, hact, hc⟩
  · rw [hc]; exact h
  · obtain ⟨⟨k1, k2, k3, k4, k5⟩, hidle⟩ := h
    obtain ⟨c1, _, c3, c4, _⟩ := HandleMouseClick_scheduler game inp
    have hpos := activeCount_pos game i hact
    have hcount := activeCount_of_deactivate game (HandleMouseClick game inp) i
      (fun j hj => by rw [hc]; simp [Function.update_noteq hj]) hact (by rw [hc]; simp)
    have halive : (HandleMouseClick game inp).enemiesAlive = game.enemiesAlive - 1 := by
      rw [hc]
    refine ⟨⟨?_, ?_, ?_, ?_, ?_⟩, ?_⟩
    · rw [halive, c4]; omega
    · rw [c4]; exact k2
    · rw [c3]; exact k3
    · rw [c3]; exact k4
    · rw [halive, c3]; omega
    · intro hw
      rw [c1] at hw
      have := hidle hw
      omega

theorem counts_SpawnEnemy (game : GameState) (rng : Rng) (h : counts game)
    (hpending : game.enemiesInWave > 0) : counts (SpawnEnemy game rng).1 := by
  rcases SpawnEnemy_cases game rng with ⟨_, hs⟩ | ⟨i, hidle, hs⟩
  · rw [hs]; exact h
  · obtain ⟨k1, k2, k3, k4, k5⟩ := h
    obtain ⟨_, _, _, s4, _, _, s7⟩ := SpawnEnemy_scheduler game rng
    have hcount := activeCount_of_activate game (SpawnEnemy game rng).1 i
      (fun j hj => by rw [hs]; simp [Function.update_noteq hj]) hidle
      (by rw [hs]; simp [spawnedEnemy])
    have hpend : (SpawnEnemy game rng).1.enemiesInWave = game.enemiesInWave - 1 := by
      rw [hs]
    refine ⟨?_, ?_, ?_, ?_, ?_⟩
    · rw [s4, hpend]; omega
    · rw [hpend]; omega
    · rw [s7]; exact k3
    · rw [s7]; exact k4
    · rw [s4, s7]; exact k5

theorem counts_spawnStep (game : GameState) (deltaTime : ℚ) (rng : Rng) (h : counts game) :
    counts (spawnStep game deltaTime rng).1 := by
  unfold spawnStep
  dsimp only
  split_ifs with hc
  · obtain ⟨k1, k2, k3, k4, k5⟩ := counts_SpawnEnemy game rng h hc.1
    exact ⟨k1, k2, k3, k4, k5⟩
  · obtain ⟨k1, k2, k3, k4, k5⟩ := h
    exact ⟨k1, k2, k3, k4, k5⟩

theorem counts_updateEnemy (sqrt : ℚ → ℚ) (deltaTime : ℚ) (st : GameState × Rng)
    (i : Fin MAX_ENEMIES) (h : counts st.1) : counts (updateEnemy sqrt deltaTime st i).1 := by
  obtain ⟨k1, k2, k3, k4, k5⟩ := h
  obtain ⟨_, u2, u3, _, _, _, _⟩ := updateEnemy_sameOutsideUnits sqrt deltaTime st i
  obtain ⟨hidle, hact⟩ := updateEnemy_slot sqrt deltaTime st i
  by_cases h0 : (st.1.enemies i).active = 0
  · rw [hidle h0]
    exact ⟨k1, k2, k3, k4, k5⟩
  · rcases hact h0 with ⟨e1, _, _, e4⟩ | ⟨e1, _, _, e4⟩
    · have hcount := activeCount_of_still_active st.1 (updateEnemy sqrt deltaTime st i).1 i
        (fun j hj => updateEnemy_other sqrt deltaTime st i j hj) h0 (by rw [e1]; exact h0)
      refine ⟨?_, by rw [u3]; exact k2, by rw [u2]; exact k3, by rw [u2]; exact k4, ?_⟩
      · rw [e4, u3, hcount]; exact k1
      · rw [e4, u2]; exact k5
    · have hcount := activeCount_of_deactivate st.1 (updateEnemy sqrt deltaTime st i).1 i
        (fun j hj => updateEnemy_other sqrt deltaTime st i j hj) h0 e1
      refine ⟨?_, by rw [u3]; exact k2, by rw [u2]; exact k3, by rw [u2]; exact k4, ?_⟩
      · rw [e4, u3]; omega
      · rw [e4, u2]; omega

theorem counts_UpdateEnemies (sqrt : ℚ → ℚ) (game : GameState) (deltaTime : ℚ) (rng : Rng)
    (h : counts game) : counts (UpdateEnemies sqrt game deltaTime rng).1 := by
  rw [UpdateEnemies_eq]
  have hl : ∀ (l : List (Fin MAX_ENEMIES)) (st : GameState × Rng), counts st.1 →
      counts (l.foldl (updateEnemy sqrt deltaTime) st).1 := by
    intro l
    induction l with
    | nil => intro st hst; exact hst
    | cons a t ih =>
      intro st hst
      rw [List.foldl_cons]
      exact ih _ (counts_updateEnemy sqrt deltaTime st a hst)
  exact hl _ (game, rng) h

theorem accounting_UpdateGame (sqrt : ℚ → ℚ) (game : GameState) (deltaTime : ℚ) (inp : Input)
    (rng : Rng) (h : accounting game) :
    accounting (UpdateGame sqrt game deltaTime inp rng).1 := by
  by_cases hnt : (game.castleHealth ≤ 0
      ∨ (game.wave ≥ 5 ∧ game.enemiesAlive = 0 ∧ game.waveInProgress = false))
  · rw [UpdateGame_of_terminal sqrt game deltaTime inp rng hnt]
    exact h
  · have hc := accounting_HandleMouseClick game inp h
    obtain ⟨c1, _, c3, _⟩ := HandleMouseClick_scheduler game inp
    cases hw : game.waveInProgress with
    | false =>
      rw [UpdateGame_idle sqrt game deltaTime inp rng hnt hw]
      obtain ⟨⟨k1, k2, k3, k4, k5⟩, hidle⟩ := hc
      have hz := hidle (by rw [c1]; exact hw)
      split_ifs with ht
      · have hac : activeCount (SpawnWave
            { HandleMouseClick game inp with waveTimer := game.waveTimer - deltaTime })
            = activeCount (HandleMouseClick game inp) :=
          activeCount_of_enemies_eq _ _ rfl
        have hwv : (SpawnWave
            { HandleMouseClick game inp with waveTimer := game.waveTimer - deltaTime }).wave
            = (HandleMouseClick game inp).wave + 1 := rfl
        have hlt : (HandleMouseClick game inp).wave < 5 := by rw [c3]; exact ht.2
        refine ⟨⟨?_, ?_, ?_, ?_, ?_⟩, ?_⟩
        · rw [hac]
          show ((HandleMouseClick game inp).wave + 1) * 3
            = ((HandleMouseClick game inp).wave + 1) * 3 + (activeCount _ : Nat)
          omega
        · show 0 ≤ ((HandleMouseClick game inp).wave + 1) * 3
          omega
        · rw [hwv]; omega
        · rw [hwv]; omega
        · show ((HandleMouseClick game inp).wave + 1) * 3
            ≤ 3 * ((HandleMouseClick game inp).wave + 1)
          omega
        · intro hf
          exact absurd hf (by simp [SpawnWave])
      · exact ⟨⟨k1, k2, k3, k4, k5⟩, fun _ => hz⟩
    | true =>
      rw [UpdateGame_wave sqrt game deltaTime inp rng hnt hw]
      have hU := counts_UpdateEnemies sqrt
        (spawnStep (HandleMouseClick game inp) deltaTime rng).1 deltaTime
        (spawnStep (HandleMouseClick game inp) deltaTime rng).2
        (counts_spawnStep _ deltaTime rng hc.1)
      obtain ⟨_, _, _, _, _, u6, _⟩ := UpdateEnemies_sameOutsideUnits sqrt
        (spawnStep (HandleMouseClick game inp) deltaTime rng).1 deltaTime
        (spawnStep (HandleMouseClick game inp) deltaTime rng).2
      obtain ⟨s1, _⟩ := spawnStep_scheduler (HandleMouseClick game inp) deltaTime rng
      have hwip : (UpdateEnemies sqrt (spawnStep (HandleMouseClick game inp) deltaTime rng).1
          deltaTime (spawnStep (HandleMouseClick game inp) deltaTime rng).2).1.waveInProgress
          = true := by rw [u6, s1, c1, hw]
      generalize UpdateEnemies sqrt (spawnStep (HandleMouseClick game inp) deltaTime rng).1
        deltaTime (spawnStep (HandleMouseClick game inp) deltaTime rng).2 = U at hU hwip
      split_ifs with he
      · obtain ⟨k1, k2, k3, k4, k5⟩ := hU
        exact ⟨⟨k1, k2, k3, k4, k5⟩, fun _ => ⟨he.1, he.2⟩⟩
      · refine ⟨hU, fun hf => ?_⟩
        rw [hwip] at hf
        exact absurd hf (by simp)

theorem accounting_InitializeGame (fuel : Nat) (memory : GameState) (rng : Rng)
    (r : GameState × Rng) (h : InitializeGame fuel memory rng = some r) : accounting r.1 := by
  obtain ⟨p, _, hr⟩ := InitializeGame_some fuel memory rng r h
  subst hr
  have hz : activeCount
      ({ grid := p.1
         castleHealth := 10
         enemies := fun i => { memory.enemies i with active := 0 }
         wave := 0
         enemiesInWave := 0
         enemiesAlive := 0
         spawnTimer := 0
         waveTimer := 3
         waveInProgress := false
         score := 0 } : GameState) = 0 := by
    unfold activeCount
    simp
  refine ⟨⟨?_, le_refl _, le_refl _, by norm_num, by norm_num⟩, fun _ => ⟨rfl, rfl⟩⟩
  show (0 : Int) = 0 + ((activeCount _ : Nat) : Int)
  rw [hz]
  rfl

theorem accounting_of_Reachable (sqrt : ℚ → ℚ) (game : GameState)
    (h : Reachable sqrt game) : accounting game := by
  induction h with
  | init fuel memory rng r hr => exact accounting_InitializeGame fuel memory rng r hr
  | tick game deltaTime inp rng _ _ ih =>
    exact accounting_UpdateGame sqrt game deltaTime inp rng ih

theorem UpdateGame_wave_step (sqrt : ℚ → ℚ) (game : GameState) (deltaTime : ℚ) (inp : Input)
    (rng : Rng) :
    (UpdateGame sqrt game deltaTime inp rng).1.wave = game.wave
    ∨ (game.waveInProgress = false
      ∧ (UpdateGame sqrt game deltaTime inp rng).1.wave = game.wave + 1) := by
  obtain ⟨_, _, c3, _⟩ := HandleMouseClick_scheduler game inp
  by_cases hnt : (game.castleHealth ≤ 0
      ∨ (game.wave ≥ 5 ∧ game.enemiesAlive = 0 ∧ game.waveInProgress = false))
  · rw [UpdateGame_of_terminal sqrt game deltaTime inp rng hnt]
    exact Or.inl rfl
  · cases hw : game.waveInProgress with
    | false =>
      rw [UpdateGame_idle sqrt game deltaTime inp rng hnt hw]
      split_ifs
      · right
        refine ⟨rfl, ?_⟩
        show (HandleMouseClick game inp).wave + 1 = game.wave + 1
        rw [c3]
      · exact Or.inl c3
    | true =>
      left
      obtain ⟨_, u2, _⟩ := UpdateEnemies_sameOutsideUnits sqrt
        (spawnStep (HandleMouseClick game inp) deltaTime rng).1 deltaTime
        (spawnStep (HandleMouseClick game inp) deltaTime rng).2
      obtain ⟨_, _, _, _, _, _, s7⟩ :=
        spawnStep_scheduler (HandleMouseClick game inp) deltaTime rng
      rw [UpdateGame_wave sqrt game deltaTime inp rng hnt hw]
      have hwv : (UpdateEnemies sqrt (spawnStep (HandleMouseClick game inp) deltaTime rng).1
          deltaTime (spawnStep (HandleMouseClick game inp) deltaTime rng).2).1.wave
          = game.wave := by rw [u2, s7, c3]
      generalize UpdateEnemies sqrt (spawnStep (HandleMouseClick game inp) deltaTime rng).1
        deltaTime (spawnStep (HandleMouseClick game inp) deltaTime rng).2 = U at hwv
      split_ifs
      · exact hwv
      · exact hwv

theorem InitializeGame_countingRng_reachable (sqrt : ℚ → ℚ) :
    ∃ r, InitializeGame 1 startState countingRng = some r ∧ Reachable sqrt r.1 := by
  obtain ⟨r, hr⟩ := Option.isSome_iff_exists.1 InitializeGame_countingRng
  exact ⟨r, hr, Reachable.init 1 startState countingRng r hr⟩

/-! ## C15, C16, C19: invariants of reachable states -/

/-- C15. In every state reachable from `InitializeGame` by `UpdateGame` ticks
(any non-negative elapsed times, clicks and random draws), `0 <= wave <= 5`,
and one more tick, whatever its input, leaves `wave` unchanged or increases it
by exactly 1. -/
theorem wave_bounded_monotone (sqrt : ℚ → ℚ) (game : GameState) (h : Reachable sqrt game) :
    0 ≤ game.wave ∧ game.wave ≤ 5
    ∧ ∀ (deltaTime : ℚ) (inp : Input) (rng : Rng),
        game.wave ≤ (UpdateGame sqrt game deltaTime inp rng).1.wave
        ∧ (UpdateGame sqrt game deltaTime inp rng).1.wave ≤ game.wave + 1 := by
  obtain ⟨⟨_, _, k3, k4, _⟩, _⟩ := accounting_of_Reachable sqrt game h
  refine ⟨k3, k4, ?_⟩
  intro deltaTime inp rng
  rcases UpdateGame_wave_step sqrt game deltaTime inp rng with hs | ⟨_, hs⟩ <;>
    rw [hs] <;> constructor <;> omega

/-- C15 at the state `InitializeGame` returns on `countingRng` and at the
state one tick of three seconds later (which starts wave 1). -/
theorem wave_bounded_monotone_witness :
    ∃ r, InitializeGame 1 startState countingRng = some r ∧ Reachable id r.1
      ∧ 0 ≤ r.1.wave ∧ r.1.wave ≤ 5
      ∧ Reachable id (UpdateGame id r.1 3 noClick r.2).1
      ∧ 0 ≤ (UpdateGame id r.1 3 noClick r.2).1.wave
      ∧ (UpdateGame id r.1 3 noClick r.2).1.wave ≤ 5
      ∧ r.1.wave ≤ (UpdateGame id r.1 3 noClick r.2).1.wave := by
  obtain ⟨r, hr, hreach⟩ := InitializeGame_countingRng_reachable id
  have h2 : Reachable id (UpdateGame id r.1 3 noClick r.2).1 :=
    Reachable.tick r.1 3 noClick r.2 hreach (by norm_num)
  exact ⟨r, hr, hreach, (wave_bounded_monotone id r.1 hreach).1,
    (wave_bounded_monotone id r.1 hreach).2.1, h2,
    (wave_bounded_monotone id _ h2).1, (wave_bounded_monotone id _ h2).2.1,
    ((wave_bounded_monotone id r.1 hreach).2.2 3 noClick r.2).1⟩

/-- C16. In every state reachable from `InitializeGame` by `UpdateGame` ticks
(any non-negative elapsed times, clicks and random draws), `enemiesAlive >= 0`
and `enemiesInWave >= 0`. -/
theorem counters_nonnegative (sqrt : ℚ → ℚ) (game : GameState) (h : Reachable sqrt game) :
    0 ≤ game.enemiesAlive ∧ 0 ≤ game.enemiesInWave := by
  obtain ⟨⟨k1, k2, _, _, _⟩, _⟩ := accounting_of_Reachable sqrt game h
  constructor
  · rw [k1]
    have : (0 : Int) ≤ (activeCount game : Nat) := Int.ofNat_nonneg _
    omega
  · exact k2

/-- C16 at the state `InitializeGame` returns on `countingRng`, after one tick
of three seconds (which starts wave 1). -/
theorem counters_nonnegative_witness :
    ∃ r, InitializeGame 1 startState countingRng = some r
      ∧ Reachable id (UpdateGame id r.1 3 noClick r.2).1
      ∧ 0 ≤ (UpdateGame id r.1 3 noClick r.2).1.enemiesAlive
      ∧ 0 ≤ (UpdateGame id r.1 3 noClick r.2).1.enemiesInWave := by
  obtain ⟨r, hr, hreach⟩ := InitializeGame_countingRng_reachable id
  have h2 : Reachable id (UpdateGame id r.1 3 noClick r.2).1 :=
    Reachable.tick r.1 3 noClick r.2 hreach (by norm_num)
  exact ⟨r, hr, h2, (counters_nonnegative id _ h2).1, (counters_nonnegative id _ h2).2⟩

/-- C19. In every state reachable from `InitializeGame` by `UpdateGame` ticks,
`enemiesAlive = enemiesInWave + (number of pool slots with active set)`, and
whenever `waveInProgress` is false both `enemiesAlive` and `enemiesInWave` are
0 and no slot is active. -/
theorem accounting_invariant (sqrt : ℚ → ℚ) (game : GameState) (h : Reachable sqrt game) :
    game.enemiesAlive = game.enemiesInWave + (activeCount game : Nat)
    ∧ (game.waveInProgress = false →
        game.enemiesAlive = 0 ∧ game.enemiesInWave = 0
        ∧ ∀ i, (game.enemies i).active = 0) := by
  obtain ⟨⟨k1, _, _, _, _⟩, hidle⟩ := accounting_of_Reachable sqrt game h
  refine ⟨k1, fun hw => ?_⟩
  obtain ⟨ha, hp⟩ := hidle hw
  refine ⟨ha, hp, fun i => ?_⟩
  by_contra hact
  have := activeCount_pos game i hact
  omega

/-- C19 at the state `InitializeGame` returns on `countingRng` (between
waves) and at the state one tick of three seconds later (wave 1 in progress). -/
theorem accounting_invariant_witness :
    ∃ r, InitializeGame 1 startState countingRng = some r ∧ Reachable id r.1
      ∧ r.1.enemiesAlive = r.1.enemiesInWave + (activeCount r.1 : Nat)
      ∧ Reachable id (UpdateGame id r.1 3 noClick r.2).1
      ∧ (UpdateGame id r.1 3 noClick r.2).1.enemiesAlive
          = (UpdateGame id r.1 3 noClick r.2).1.enemiesInWave
            + (activeCount (UpdateGame id r.1 3 noClick r.2).1 : Nat) := by
  obtain ⟨r, hr, hreach⟩ := InitializeGame_countingRng_reachable id
  have h2 : Reachable id (UpdateGame id r.1 3 noClick r.2).1 :=
    Reachable.tick r.1 3 noClick r.2 hreach (by norm_num)
  exact ⟨r, hr, hreach, (accounting_invariant id r.1 hreach).1, h2,
    (accounting_invariant id _ h2).1⟩

/-! ## C20: the pool is never full -/

theorem activeCount_le_of_counts (game : GameState) (h : counts game) :
    activeCount game ≤ 15 := by
  obtain ⟨k1, k2, _, k4, k5⟩ := h
  omega

theorem exists_inactive_of_counts (game : GameState) (h : counts game) :
    ∃ i, (game.enemies i).active = 0 := by
  by_contra hno
  push_neg at hno
  have h35 := activeCount_of_all_active game hno
  have h15 := activeCount_le_of_counts game h
  simp only [MAX_ENEMIES] at h35
  omega

/-- With a free slot, `SpawnEnemy` releases a unit: one slot turns active and
`enemiesInWave` drops by 1. -/
theorem SpawnEnemy_releases (game : GameState) (rng : Rng) (h : counts game) :
    ∃ i, (game.enemies i).active = 0
      ∧ ((SpawnEnemy game rng).1.enemies i).active ≠ 0
      ∧ (∀ j, j ≠ i → (SpawnEnemy game rng).1.enemies j = game.enemies j)
      ∧ (SpawnEnemy game rng).1.enemiesInWave = game.enemiesInWave - 1
      ∧ activeCount (SpawnEnemy game rng).1 = activeCount game + 1 := by
  obtain ⟨k, hk⟩ := exists_inactive_of_counts game h
  rcases SpawnEnemy_cases game rng with ⟨hall, _⟩ | ⟨i, hidle, hs⟩
  · exact absurd hk (hall k)
  · have hothers : ∀ j, j ≠ i → (SpawnEnemy game rng).1.enemies j = game.enemies j := by
      intro j hj
      rw [hs]
      simp [Function.update_noteq hj]
    have hnew : ((SpawnEnemy game rng).1.enemies i).active ≠ 0 := by
      rw [hs]
      simp [spawnedEnemy]
    exact ⟨i, hidle, hnew, hothers, by rw [hs],
      activeCount_of_activate game (SpawnEnemy game rng).1 i hothers hidle hnew⟩

/-- The spawn step of a tick: the pending count drops by the number of slots
the step activates, which is 1 when `SpawnEnemy` is called and 0 otherwise. -/
theorem spawnStep_released (game : GameState) (deltaTime : ℚ) (rng : Rng) (h : counts game) :
    ((game.enemiesInWave > 0 ∧ game.spawnTimer ≤ 0) →
      (∑ i : Fin MAX_ENEMIES,
        if (game.enemies i).active = 0
            ∧ ((spawnStep game deltaTime rng).1.enemies i).active ≠ 0 then 1 else 0) = 1
      ∧ (spawnStep game deltaTime rng).1.enemiesInWave = game.enemiesInWave - 1)
    ∧ (¬ (game.enemiesInWave > 0 ∧ game.spawnTimer ≤ 0) →
      (∑ i : Fin MAX_ENEMIES,
        if (game.enemies i).active = 0
            ∧ ((spawnStep game deltaTime rng).1.enemies i).active ≠ 0 then 1 else 0) = 0
      ∧ (spawnStep game deltaTime rng).1.enemiesInWave = game.enemiesInWave) := by
  constructor
  · intro hc
    obtain ⟨i, hidle, hnew, hothers, hpend, _⟩ := SpawnEnemy_releases game rng h
    have hst : (spawnStep game deltaTime rng).1.enemies = (SpawnEnemy game rng).1.enemies := by
      unfold spawnStep
      simp only [if_pos hc]
    have hpd : (spawnStep game deltaTime rng).1.enemiesInWave
        = (SpawnEnemy game rng).1.enemiesInWave := by
      unfold spawnStep
      simp only [if_pos hc]
    refine ⟨?_, by rw [hpd, hpend]⟩
    rw [hst, Finset.sum_eq_single i]
    · rw [if_pos ⟨hidle, hnew⟩]
    · intro j _ hj
      rw [hothers j hj]
      apply if_neg
      rintro ⟨h1, h2⟩
      exact h2 h1
    · intro hi
      exact absurd (Finset.mem_univ i) hi
  · intro hc
    have hst : (spawnStep game deltaTime rng).1.enemies = game.enemies := by
      unfold spawnStep
      simp only [if_neg hc]
    have hpd : (spawnStep game deltaTime rng).1.enemiesInWave = game.enemiesInWave := by
      unfold spawnStep
      simp only [if_neg hc]
    refine ⟨?_, hpd⟩
    rw [hst]
    apply Finset.sum_eq_zero
    intro j _
    apply if_neg
    rintro ⟨h1, h2⟩
    exact h2 h1

theorem Reachable_of_ReachableReleased (sqrt : ℚ → ℚ) (game : GameState) (released : Nat)
    (h : ReachableReleased sqrt game released) : Reachable sqrt game := by
  induction h with
  | init fuel memory rng r hr => exact Reachable.init fuel memory rng r hr
  | tick game released deltaTime inp rng _ hdt ih =>
    exact Reachable.tick game deltaTime inp rng ih hdt

/-- One tick keeps the ledger `released + enemiesInWave = 3 * wave`. -/
theorem ledger_UpdateGame (sqrt : ℚ → ℚ) (game : GameState) (released : Nat) (deltaTime : ℚ)
    (inp : Input) (rng : Rng) (hacc : accounting game)
    (h : (released : Int) + game.enemiesInWave = 3 * game.wave) :
    (((if game.wave < (UpdateGame sqrt game deltaTime inp rng).1.wave then 0
        else released + releasedInTick game deltaTime inp rng : Nat) : Nat) : Int)
      + (UpdateGame sqrt game deltaTime inp rng).1.enemiesInWave
      = 3 * (UpdateGame sqrt game deltaTime inp rng).1.wave := by
  obtain ⟨c1, _, c3, c4, _⟩ := HandleMouseClick_scheduler game inp
  by_cases hnt : (game.castleHealth ≤ 0
      ∨ (game.wave ≥ 5 ∧ game.enemiesAlive = 0 ∧ game.waveInProgress = false))
  · have hrel : releasedInTick game deltaTime inp rng = 0 := by
      unfold releasedInTick
      rw [if_pos (Or.inl hnt)]
    rw [UpdateGame_of_terminal sqrt game deltaTime inp rng hnt, hrel]
    simp only [lt_self_iff_false, if_false, add_zero]
    exact h
  · cases hw : game.waveInProgress with
    | false =>
      have hrel : releasedInTick game deltaTime inp rng = 0 := by
        unfold releasedInTick
        rw [if_pos (Or.inr hw)]
      rw [UpdateGame_idle sqrt game deltaTime inp rng hnt hw, hrel]
      split_ifs with ht hlt hlt
      · show ((0 : Nat) : Int) + ((HandleMouseClick game inp).wave + 1) * 3
          = 3 * ((HandleMouseClick game inp).wave + 1)
        push_cast
        ring
      · exfalso
        apply hlt
        show game.wave < (HandleMouseClick game inp).wave + 1
        rw [c3]
        omega
      · exfalso
        have : game.wave < (HandleMouseClick game inp).wave := hlt
        rw [c3] at this
        exact lt_irrefl _ this
      · show ((released + 0 : Nat) : Int) + (HandleMouseClick game inp).enemiesInWave
          = 3 * (HandleMouseClick game inp).wave
        rw [c3, c4]
        push_cast
        omega
    | true =>
      have hcnt := (accounting_HandleMouseClick game inp hacc).1
      have hrel : releasedInTick game deltaTime inp rng
          = ∑ i : Fin MAX_ENEMIES,
              if ((HandleMouseClick game inp).enemies i).active = 0
                ∧ ((spawnStep (HandleMouseClick game inp) deltaTime rng).1.enemies i).active ≠ 0
              then 1 else 0 := by
        unfold releasedInTick
        rw [if_neg]
        rintro (h1 | h1)
        · exact hnt h1
        · rw [hw] at h1
          exact absurd h1 (by simp)
      obtain ⟨hcall, hskip⟩ := spawnStep_released (HandleMouseClick game inp) deltaTime rng hcnt
      obtain ⟨_, u2, u3, _⟩ := UpdateEnemies_sameOutsideUnits sqrt
        (spawnStep (HandleMouseClick game inp) deltaTime rng).1 deltaTime
        (spawnStep (HandleMouseClick game inp) deltaTime rng).2
      obtain ⟨_, _, _, _, _, _, s7⟩ :=
        spawnStep_scheduler (HandleMouseClick game inp) deltaTime rng
      have hsum : ((releasedInTick game deltaTime inp rng : Nat) : Int)
          + (spawnStep (HandleMouseClick game inp) deltaTime rng).1.enemiesInWave
          = game.enemiesInWave := by
        rw [hrel, ← c4]
        by_cases hc : (HandleMouseClick game inp).enemiesInWave > 0
            ∧ (HandleMouseClick game inp).spawnTimer ≤ 0
        · rw [(hcall hc).1, (hcall hc).2]
          push_cast
          ring
        · rw [(hskip hc).1, (hskip hc).2]
          push_cast
          ring
      rw [UpdateGame_wave sqrt game deltaTime inp rng hnt hw]
      have hwv : (UpdateEnemies sqrt (spawnStep (HandleMouseClick game inp) deltaTime rng).1
          deltaTime (spawnStep (HandleMouseClick game inp) deltaTime rng).2).1.wave
          = game.wave := by rw [u2, s7, c3]
      have hpd : (UpdateEnemies sqrt (spawnStep (HandleMouseClick game inp) deltaTime rng).1
          deltaTime (spawnStep (HandleMouseClick game inp) deltaTime rng).2).1.enemiesInWave
          = (spawnStep (HandleMouseClick game inp) deltaTime rng).1.enemiesInWave := u3
      generalize UpdateEnemies sqrt (spawnStep (HandleMouseClick game inp) deltaTime rng).1
        deltaTime (spawnStep (HandleMouseClick game inp) deltaTime rng).2 = U at hwv hpd
      have hfin : ∀ V : GameState × Rng, V.1.wave = game.wave →
          V.1.enemiesInWave
            = (spawnStep (HandleMouseClick game inp) deltaTime rng).1.enemiesInWave →
          (((if game.wave < V.1.wave then 0
              else released + releasedInTick game deltaTime inp rng : Nat) : Nat) : Int)
            + V.1.enemiesInWave = 3 * V.1.wave := by
        intro V hV1 hV2
        rw [hV1, hV2, if_neg (lt_irrefl _)]
        push_cast
        omega
      by_cases he : U.1.enemiesAlive = 0 ∧ U.1.enemiesInWave = 0
      · rw [if_pos he]
        exact hfin ({ U.1 with waveInProgress := false, waveTimer := 3 }, U.2) hwv hpd
      · rw [if_neg he]
        exact hfin U hwv hpd

theorem ledger_of_ReachableReleased (sqrt : ℚ → ℚ) (game : GameState) (released : Nat)
    (h : ReachableReleased sqrt game released) :
    (released : Int) + game.enemiesInWave = 3 * game.wave := by
  induction h with
  | init fuel memory rng r hr =>
    obtain ⟨p, _, hr'⟩ := InitializeGame_some fuel memory rng r hr
    subst hr'
    rfl
  | tick game released deltaTime inp rng hprev _ ih =>
    exact ledger_UpdateGame sqrt game released deltaTime inp rng
      (accounting_of_Reachable sqrt game (Reachable_of_ReachableReleased sqrt game released hprev))
      ih

/-- C20. In every state reachable from `InitializeGame` by `UpdateGame` ticks,
with `released` the number of units released since the current wave started:
the number of active slots is at most 15, which is less than `MAX_ENEMIES`
(35); hence, whatever the click of the next tick, the state `UpdateGame` would
pass to `SpawnEnemy` has an inactive slot and `SpawnEnemy` releases a unit
there (one slot turns active, `enemiesInWave` drops by exactly 1), and a tick
that calls `SpawnEnemy` releases exactly one unit; `released + enemiesInWave =
3 * wave` throughout, so when wave `n` is over (`waveInProgress` false again)
exactly `3n` units have been released in it. -/
theorem pool_never_full (sqrt : ℚ → ℚ) (game : GameState) (released : Nat)
    (h : ReachableReleased sqrt game released) :
    activeCount game ≤ 15 ∧ 15 < MAX_ENEMIES
    ∧ (∀ (inp : Input) (rng : Rng),
        ∃ i, ((HandleMouseClick game inp).enemies i).active = 0
          ∧ ((SpawnEnemy (HandleMouseClick game inp) rng).1.enemies i).active ≠ 0
          ∧ (SpawnEnemy (HandleMouseClick game inp) rng).1.enemiesInWave
              = (HandleMouseClick game inp).enemiesInWave - 1
          ∧ activeCount (SpawnEnemy (HandleMouseClick game inp) rng).1
              = activeCount (HandleMouseClick game inp) + 1)
    ∧ (∀ (deltaTime : ℚ) (inp : Input) (rng : Rng),
        ¬ (game.castleHealth ≤ 0
          ∨ (game.wave ≥ 5 ∧ game.enemiesAlive = 0 ∧ game.waveInProgress = false)) →
        game.waveInProgress = true →
        ((HandleMouseClick game inp).enemiesInWave > 0
          ∧ (HandleMouseClick game inp).spawnTimer ≤ 0) →
        releasedInTick game deltaTime inp rng = 1)
    ∧ (released : Int) + game.enemiesInWave = 3 * game.wave
    ∧ (game.waveInProgress = false → (released : Int) = 3 * game.wave) := by
  have hacc := accounting_of_Reachable sqrt game
    (Reachable_of_ReachableReleased sqrt game released h)
  have hledger := ledger_of_ReachableReleased sqrt game released h
  refine ⟨activeCount_le_of_counts game hacc.1, by decide, ?_, ?_, hledger, ?_⟩
  · intro inp rng
    obtain ⟨i, h1, h2, _, h4, h5⟩ := SpawnEnemy_releases (HandleMouseClick game inp) rng
      (accounting_HandleMouseClick game inp hacc).1
    exact ⟨i, h1, h2, h4, h5⟩
  · intro deltaTime inp rng hnt hw hc
    have hrel : releasedInTick game deltaTime inp rng
        = ∑ i : Fin MAX_ENEMIES,
            if ((HandleMouseClick game inp).enemies i).active = 0
              ∧ ((spawnStep (HandleMouseClick game inp) deltaTime rng).1.enemies i).active ≠ 0
            then 1 else 0 := by
      unfold releasedInTick
      rw [if_neg]
      rintro (h1 | h1)
      · exact hnt h1
      · rw [hw] at h1
        exact absurd h1 (by simp)
    rw [hrel]
    exact ((spawnStep_released (HandleMouseClick game inp) deltaTime rng
      (accounting_HandleMouseClick game inp hacc).1).1 hc).1
  · intro hw
    have := (hacc.2 hw).2
    omega

/-- C20 at the state `InitializeGame` returns on `countingRng` and at the
state one tick of three seconds later (which starts wave 1). -/
theorem pool_never_full_witness :
    ∃ r, InitializeGame 1 startState countingRng = some r
      ∧ ReachableReleased id r.1 0
      ∧ activeCount r.1 ≤ 15
      ∧ ((0 : Nat) : Int) + r.1.enemiesInWave = 3 * r.1.wave
      ∧ ReachableReleased id (UpdateGame id r.1 3 noClick r.2).1
          (if r.1.wave < (UpdateGame id r.1 3 noClick r.2).1.wave then 0
            else 0 + releasedInTick r.1 3 noClick r.2)
      ∧ activeCount (UpdateGame id r.1 3 noClick r.2).1 ≤ 15 := by
  obtain ⟨r, hr⟩ := Option.isSome_iff_exists.1 InitializeGame_countingRng
  have hreach : ReachableReleased id r.1 0 := ReachableReleased.init 1 startState countingRng r hr
  have h2 : ReachableReleased id (UpdateGame id r.1 3 noClick r.2).1
      (if r.1.wave < (UpdateGame id r.1 3 noClick r.2).1.wave then 0
        else 0 + releasedInTick r.1 3 noClick r.2) :=
    ReachableReleased.tick r.1 0 3 noClick r.2 hreach (by norm_num)
  exact ⟨r, hr, hreach, (pool_never_full id r.1 0 hreach).1,
    (pool_never_full id r.1 0 hreach).2.2.2.2.1, h2, (pool_never_full id _ _ h2).1⟩

end DefendTheSpire

namespace DefendTheSpire

/-! ## C6: a tick between waves -/

/-- Between waves a reachable state has no active unit, so the click
resolution leaves it unchanged. -/
theorem HandleMouseClick_of_reachable_idle (sqrt : ℚ → ℚ) (game : GameState)
    (hreach : Reachable sqrt game) (hw : game.waveInProgress = false) (inp : Input) :
    HandleMouseClick game inp = game := by
  obtain ⟨⟨k1, _, _, _, _⟩, hidle⟩ := accounting_of_Reachable sqrt game hreach
  obtain ⟨ha, hp⟩ := hidle hw
  rcases HandleMouseClick_cases game inp with h | ⟨i, hact, _⟩
  · exact h
  · exfalso
    have := activeCount_pos game i hact
    omega

/-- C6. For every non-terminal state with `waveInProgress` false that is
reachable from `InitializeGame` by `UpdateGame` ticks, and every tick input
(elapsed time, click, generator): `UpdateGame` decreases `waveTimer` by the
elapsed time and consumes no random draw; if the new `waveTimer` is `<= 0` and
`wave < 5`, then afterwards `wave` is one larger, `enemiesInWave = 3 * (new
wave)`, `enemiesAlive = enemiesInWave`, `spawnTimer = 0.5` and `waveInProgress`
is true; otherwise `wave`, `enemiesInWave`, `enemiesAlive` and `waveInProgress`
are unchanged. In neither case is a unit spawned or moved in that tick: the
pool is unchanged in every slot, and so are `castleHealth`, `score` and the
grid. -/
theorem UpdateGame_between_waves (sqrt : ℚ → ℚ) (game : GameState)
    (hreach : Reachable sqrt game)
    (hnt : ¬ (game.castleHealth ≤ 0
      ∨ (game.wave ≥ 5 ∧ game.enemiesAlive = 0 ∧ game.waveInProgress = false)))
    (hw : game.waveInProgress = false) (deltaTime : ℚ) (inp : Input) (rng : Rng) :
    (UpdateGame sqrt game deltaTime inp rng).2 = rng
    ∧ (UpdateGame sqrt game deltaTime inp rng).1.waveTimer = game.waveTimer - deltaTime
    ∧ ((game.waveTimer - deltaTime ≤ 0 ∧ game.wave < 5) →
        (UpdateGame sqrt game deltaTime inp rng).1.wave = game.wave + 1
        ∧ (UpdateGame sqrt game deltaTime inp rng).1.enemiesInWave
            = 3 * (UpdateGame sqrt game deltaTime inp rng).1.wave
        ∧ (UpdateGame sqrt game deltaTime inp rng).1.enemiesAlive
            = (UpdateGame sqrt game deltaTime inp rng).1.enemiesInWave
        ∧ (UpdateGame sqrt game deltaTime inp rng).1.spawnTimer = 1 / 2
        ∧ (UpdateGame sqrt game deltaTime inp rng).1.waveInProgress = true)
    ∧ (¬ (game.waveTimer - deltaTime ≤ 0 ∧ game.wave < 5) →
        (UpdateGame sqrt game deltaTime inp rng).1.wave = game.wave
        ∧ (UpdateGame sqrt game deltaTime inp rng).1.enemiesInWave = game.enemiesInWave
        ∧ (UpdateGame sqrt game deltaTime inp rng).1.enemiesAlive = game.enemiesAlive
        ∧ (UpdateGame sqrt game deltaTime inp rng).1.waveInProgress = false)
    ∧ (UpdateGame sqrt game deltaTime inp rng).1.enemies = game.enemies
    ∧ (UpdateGame sqrt game deltaTime inp rng).1.castleHealth = game.castleHealth
    ∧ (UpdateGame sqrt game deltaTime inp rng).1.score = game.score
    ∧ (UpdateGame sqrt game deltaTime inp rng).1.grid = game.grid := by
  have hclick := HandleMouseClick_of_reachable_idle sqrt game hreach hw inp
  have hu := UpdateGame_idle sqrt game deltaTime inp rng hnt hw
  rw [hclick] at hu
  by_cases ht : game.waveTimer - deltaTime ≤ 0 ∧ game.wave < 5
  · rw [if_pos ht] at hu
    rw [hu]
    refine ⟨rfl, rfl, fun _ => ⟨rfl, ?_, rfl, rfl, rfl⟩, fun hn => absurd ht hn,
      rfl, rfl, rfl, rfl⟩
    show (game.wave + 1) * 3 = 3 * (game.wave + 1)
    ring
  · rw [if_neg ht] at hu
    rw [hu]
    exact ⟨rfl, rfl, fun h => absurd h ht, fun _ => ⟨rfl, rfl, rfl, hw⟩, rfl, rfl, rfl, rfl⟩

/-- C6 at the state `InitializeGame` returns on `countingRng`, which is
reachable, not terminal and between waves, with an elapsed time of 3 seconds
and no click: the inter-wave timer expires and wave 1 starts with three units,
none of them released yet. -/
theorem UpdateGame_between_waves_witness :
    ∃ r, InitializeGame 1 startState countingRng = some r
      ∧ Reachable id r.1
      ∧ ¬ (r.1.castleHealth ≤ 0
        ∨ (r.1.wave ≥ 5 ∧ r.1.enemiesAlive = 0 ∧ r.1.waveInProgress = false))
      ∧ r.1.waveInProgress = false
      ∧ (r.1.waveTimer - 3 ≤ 0 ∧ r.1.wave < 5)
      ∧ (UpdateGame id r.1 3 noClick r.2).1.waveTimer = r.1.waveTimer - 3
      ∧ (UpdateGame id r.1 3 noClick r.2).1.wave = r.1.wave + 1
      ∧ (UpdateGame id r.1 3 noClick r.2).1.enemiesInWave
          = 3 * (UpdateGame id r.1 3 noClick r.2).1.wave
      ∧ (UpdateGame id r.1 3 noClick r.2).1.waveInProgress = true
      ∧ (UpdateGame id r.1 3 noClick r.2).1.enemies = r.1.enemies := by
  obtain ⟨r, hr, hreach⟩ := InitializeGame_countingRng_reachable id
  obtain ⟨p, _, hp⟩ := InitializeGame_some 1 startState countingRng r hr
  have hnt : ¬ (r.1.castleHealth ≤ 0
      ∨ (r.1.wave ≥ 5 ∧ r.1.enemiesAlive = 0 ∧ r.1.waveInProgress = false)) := by
    rw [hp]; simp
  have hw : r.1.waveInProgress = false := by rw [hp]
  have ht : r.1.waveTimer - 3 ≤ 0 ∧ r.1.wave < 5 := by
    rw [hp]; simp
  have hthm := UpdateGame_between_waves id r.1 hreach hnt hw 3 noClick r.2
  exact ⟨r, hr, hreach, hnt, hw, ht, hthm.2.1, (hthm.2.2.1 ht).1, (hthm.2.2.1 ht).2.1,
    (hthm.2.2.1 ht).2.2.2.2, hthm.2.2.2.2.1⟩

end DefendTheSpire
